import Mathlib

/-!
Verification of the Evidence Aggregation and Adaptive Scoring Engine of the
Transcript-Based Skill Validation Quiz backend.

The Lean definitions below are a shallow embedding of the Python sources:

* app/services/quiz_scoring_service.py   (quiz scorer and portfolio blender)
* app/services/skill_scoring.py          (evidence builder and claimed-score
  aggregator)
* app/services/question_bank_service.py  (bank sampler)
* app/schemas/quiz_submit.py and app/routes/quiz.py (request validation for
  quiz submission)

Database tables are modelled as Lean lists of structures; SQLAlchemy queries
become list filters, inserts become appends, deletes become filters with the
negated predicate.  Numeric columns (Python floats holding exact decimal
literals and small integer arithmetic) are modelled as rationals; the two
transcendental quantities (the recency factor and the confidence, both built
from math.exp) are handled by keeping the scoring pipeline polymorphic over a
linearly ordered field together with an explicit exponential-function
parameter, which theorems instantiate with the real exponential.
Display-only rounding (round(x, n) in the returned JSON summaries) and
logging are not modelled; every persisted value is.
-/

namespace SkillQuiz

/-! ## Data model (app/models) -/

/-- Row of quiz_question (models/quiz.py).  question_id is the autoincrement
primary key of the table, so distinct rows carry distinct ids. -/
structure QuizQuestion where
  question_id : ℤ
  attempt_id : ℤ
  student_id : String
  skill_name : String
  correct_option : String
  deriving DecidableEq, Repr

/-- One submitted answer (schemas/quiz_submit.py, AnswerItem). -/
structure AnswerItem where
  question_id : ℤ
  selected_option : String
  deriving DecidableEq, Repr

/-- Row of quiz_answer (models/quiz_answer.py). -/
structure QuizAnswer where
  attempt_id : ℤ
  question_id : ℤ
  student_id : String
  selected_option : String
  is_correct : Bool
  deriving DecidableEq, Repr

/-- Row of skill_profile_claimed as read by the quiz scorer
(models/skill.py; only the columns the scorer touches). -/
structure ClaimedProfile where
  student_id : String
  skill_name : String
  claimed_score : ℚ
  deriving DecidableEq, Repr

/-- Row of student_skill_portfolio (models/student_skill_portfolio.py). -/
structure PortfolioRow where
  student_id : String
  skill_name : String
  claimed_score : ℚ
  verified_score : ℚ
  quiz_weight : ℚ
  claimed_weight : ℚ
  final_score : ℚ
  final_level : String
  correct_count : ℕ
  total_questions : ℕ
  deriving DecidableEq, Repr

/-- The slice of the database touched by a quiz submission. -/
structure QuizDB where
  quizQuestions : List QuizQuestion
  quizAnswers : List QuizAnswer
  claimedProfiles : List ClaimedProfile
  portfolio : List PortfolioRow
  deriving DecidableEq, Repr

/-! ## Quiz scorer (quiz_scoring_service.py) -/

/-- determine_level of quiz_scoring_service.py: three-tier thresholds. -/
def determine_level (score : ℚ) : String :=
  if score < 50 then "Beginner"
  else if score < 75 then "Intermediate"
  else "Advanced"

/-- The questions of one attempt for one student (step 1 of
score_quiz_attempt: the QuizQuestion query filtered on attempt_id and
student_id). -/
def attemptQuestions (db : QuizDB) (student_id : String) (attempt_id : ℤ) :
    List QuizQuestion :=
  db.quizQuestions.filter fun q =>
    decide (q.attempt_id = attempt_id ∧ q.student_id = student_id)

/-- Lookup in the answer_map dict built from the submitted list; a Python
dict comprehension lets a later duplicate question_id override an earlier
one, hence the search over the reversed list. -/
def answerLookup (answers : List AnswerItem) (qid : ℤ) : Option String :=
  (answers.reverse.find? fun a => decide (a.question_id = qid)).map
    (·.selected_option)

/-- Grading of one question of the attempt (step 4 of score_quiz_attempt).
The Python falsiness test (if not selected_option) treats both a missing
answer and an empty-string answer as unanswered. -/
def gradeQuestion (answers : List AnswerItem) (q : QuizQuestion) :
    String × Bool :=
  match answerLookup answers q.question_id with
  | none => ("UNANSWERED", false)
  | some s =>
      if s = "" then ("UNANSWERED", false)
      else (s, decide (s = q.correct_option))

/-- A Python dict keyed by skill name, modelled as an insertion-ordered
association list: updating an existing key rewrites its value in place,
a fresh key is appended at the end (dict iteration order). -/
def dictUpsert {α : Type} : List (String × α) → String → (Option α → α) →
    List (String × α)
  | [], k, f => [(k, f none)]
  | (k', v) :: rest, k, f =>
      if k' = k then (k', f (some v)) :: rest
      else (k', v) :: dictUpsert rest k f

/-- Dict lookup: value at the first occurrence of the key. -/
def dictFind {α : Type} (m : List (String × α)) (k : String) : Option α :=
  (m.find? fun p => decide (p.1 = k)).map (·.2)

/-- One update of the skill_stats defaultdict for a graded question:
(correct, total) counters for the skill of the question. -/
def statStep (correct : Bool) (o : Option (ℕ × ℕ)) : ℕ × ℕ :=
  let ct := o.getD (0, 0)
  (ct.1 + (if correct then 1 else 0), ct.2 + 1)

/-- skill_stats after the grading loop of score_quiz_attempt. -/
def skillStats (answers : List AnswerItem) (questions : List QuizQuestion) :
    List (String × ℕ × ℕ) :=
  questions.foldl
    (fun st q => dictUpsert st q.skill_name (statStep (gradeQuestion answers q).2))
    []

/-- The claimed_scores dict lookup with default 0.0 (step 6 and step 7); a
later duplicate (student, skill) profile row would override an earlier one
in the dict, hence the reversed search. -/
def claimedLookup (profiles : List ClaimedProfile) (student_id : String)
    (skill : String) : ℚ :=
  (((profiles.filter fun p => decide (p.student_id = student_id)).reverse.find?
      fun p => decide (p.skill_name = skill)).map (·.claimed_score)).getD 0

/-- Upsert into StudentSkillPortfolio (step 7): the first row matching
(student_id, skill_name) is overwritten field-by-field; with no match a new
row is inserted. -/
def upsertPortfolio : List PortfolioRow → PortfolioRow → List PortfolioRow
  | [], row => [row]
  | p :: rest, row =>
      if p.student_id = row.student_id ∧ p.skill_name = row.skill_name then
        row :: rest
      else
        p :: upsertPortfolio rest row

/-- The portfolio row written for one skill of the attempt (steps 5 and 7 of
score_quiz_attempt): verified score for the skill over this attempt,
adaptive weights from the question count of the attempt for the skill, blended
final score, three-tier level. -/
def portfolioRowFor (db : QuizDB) (student_id : String) (skill : String)
    (correct total : ℕ) : PortfolioRow :=
  let verified_score : ℚ :=
    if total > 0 then 100 * (correct : ℚ) / (total : ℚ) else 0
  let claimed_score := claimedLookup db.claimedProfiles student_id skill
  let w_quiz : ℚ := min (1/2 + 1/20 * (total : ℚ)) (4/5)
  let w_claimed : ℚ := 1 - w_quiz
  let final_score := w_quiz * verified_score + w_claimed * claimed_score
  { student_id := student_id
    skill_name := skill
    claimed_score := claimed_score
    verified_score := verified_score
    quiz_weight := w_quiz
    claimed_weight := w_claimed
    final_score := final_score
    final_level := determine_level final_score
    correct_count := correct
    total_questions := total }

/-- The per-skill loop of step 7: upsert one portfolio row per entry of
skill_stats, in dict iteration order. -/
def applyStats (db : QuizDB) (student_id : String)
    (port : List PortfolioRow) (stats : List (String × ℕ × ℕ)) :
    List PortfolioRow :=
  stats.foldl
    (fun port stat =>
      upsertPortfolio port (portfolioRowFor db student_id stat.1 stat.2.1 stat.2.2))
    port

/-- score_quiz_attempt of quiz_scoring_service.py.  Returns the updated
database slice; a raised ValueError is an error result, leaving the database of the
caller untouched (the only commit is at the end of the function).  The
JSON summary returned to the route (rounded copies of the persisted values)
is display-only and not modelled. -/
def score_quiz_attempt (db : QuizDB) (student_id : String) (attempt_id : ℤ)
    (answers : List AnswerItem) : Except String QuizDB :=
  let questions := attemptQuestions db student_id attempt_id
  if questions.isEmpty then
    .error "Quiz attempt not found for student"
  else
    let validIds := questions.map (·.question_id)
    if answers.any (fun a => !(validIds.contains a.question_id)) then
      .error "Invalid question_ids for this attempt"
    else
      -- step 3: delete previous QuizAnswer rows for this attempt and student
      let keptAnswers := db.quizAnswers.filter fun qa =>
        !(decide (qa.attempt_id = attempt_id ∧ qa.student_id = student_id))
      -- step 4: grade each question of the attempt and create its row
      let newAnswers := questions.map fun q =>
        let g := gradeQuestion answers q
        { attempt_id := attempt_id
          question_id := q.question_id
          student_id := student_id
          selected_option := g.1
          is_correct := g.2 : QuizAnswer }
      -- steps 5-7: aggregate per skill and upsert the portfolio rows
      let stats := skillStats answers questions
      .ok { db with
              quizAnswers := keptAnswers ++ newAnswers
              portfolio := applyStats db student_id db.portfolio stats }

/-- The database slice as it stands after a submission request: the new one
on success, the unchanged one when the service raised. -/
def submitResultDB (db : QuizDB) (student_id : String) (attempt_id : ℤ)
    (answers : List AnswerItem) : QuizDB :=
  match score_quiz_attempt db student_id attempt_id answers with
  | .ok db' => db'
  | .error _ => db

/-! ## Submission route and schema validation
(schemas/quiz_submit.py, routes/quiz.py) -/

/-- The pydantic pattern on AnswerItem.selected_option: exactly one
character between A and D. -/
def matchesOptionPattern (s : String) : Bool :=
  match s.data with
  | [c] => decide ('A' ≤ c ∧ c ≤ 'D')
  | _ => false

/-- The submit_quiz route (routes/quiz.py): pydantic validates every
AnswerItem against the option pattern before the route body runs; the body
rejects an empty answer list and otherwise delegates to
score_quiz_attempt. -/
def submit_quiz (db : QuizDB) (student_id : String) (attempt_id : ℤ)
    (answers : List AnswerItem) : Except String QuizDB :=
  if answers.any (fun a => !(matchesOptionPattern a.selected_option)) then
    .error "ValidationError: selected_option must match [A-D]"
  else if answers.isEmpty then
    .error "Answers list cannot be empty"
  else
    score_quiz_attempt db student_id attempt_id answers

/-- The database slice after a whole submission request through the route. -/
def routeResultDB (db : QuizDB) (student_id : String) (attempt_id : ℤ)
    (answers : List AnswerItem) : QuizDB :=
  match submit_quiz db student_id attempt_id answers with
  | .ok db' => db'
  | .error _ => db

/-! ## Evidence builder and claimed-score aggregator (skill_scoring.py)

The only transcendental ingredient of skill_scoring.py is math.exp, used for
the recency factor and for the confidence.  The pipeline below is therefore
polymorphic over a linearly ordered field K together with a function
expK : K → K standing for math.exp; theorems instantiate K with the reals
and expK with Real.exp.  All database columns are exact decimal values,
modelled as rationals and cast into K where the Python code computes. -/

/-- Row of courses_taken (models/course.py; the columns skill_scoring.py
reads). -/
structure CourseTaken where
  student_id : String
  course_code : String
  grade : String
  year_taken : Option ℤ
  credits : Option ℚ
  academic_year : Option ℤ
  deriving DecidableEq, Repr

/-- Row of course_skill_map (models/course.py). -/
structure CourseSkillMap where
  course_code : String
  skill_name : String
  map_weight : ℚ
  deriving DecidableEq, Repr

/-- Row of skill_evidence (models/skill.py), as created by
compute_claimed_skills. -/
structure SkillEvidenceRow (K : Type) where
  student_id : String
  skill_name : String
  course_code : String
  map_weight : ℚ
  credits : ℚ
  grade : String
  grade_norm : ℚ
  academic_year : Option ℤ
  recency : K
  evidence_weight : K
  contribution : K
  deriving DecidableEq, Repr

/-- Row of skill_profile_claimed (models/skill.py), as created by
compute_claimed_skills. -/
structure ClaimedSkillRow (K : Type) where
  student_id : String
  skill_name : String
  claimed_score : K
  claimed_level : String
  confidence : K
  deriving DecidableEq, Repr

/-- The slice of the database touched by a skill recompute. -/
structure SkillDB (K : Type) where
  courses : List CourseTaken
  maps : List CourseSkillMap
  evidence : List (SkillEvidenceRow K)
  claimed : List (ClaimedSkillRow K)
  deriving DecidableEq, Repr

/-- GRADE_MAPPING of skill_scoring.py: letter grade to GPA points on the
4.0 scale. -/
def GRADE_MAPPING : List (String × ℚ) :=
  [("A+", 4), ("A", 4), ("A-", 37/10),
   ("B+", 33/10), ("B", 3), ("B-", 27/10),
   ("C+", 23/10), ("C", 2), ("C-", 17/10),
   ("D+", 13/10), ("D", 1), ("F", 0)]

/-- get_grade_points: normalise the grade string and look it up, defaulting
to 0.0 for anything outside the table. -/
def get_grade_points (grade : String) : ℚ :=
  ((GRADE_MAPPING.find? fun p => decide (p.1 = grade.trim.toUpper)).map
    (·.2)).getD 0

/-- ASCII word character, as used by the word-boundary of the regular
expression in compute_claimed_skills. -/
def isWordChar (c : Char) : Bool :=
  c.isAlphanum || c = '_'

/-- The course-code fallback of compute_claimed_skills for a missing
academic_year: re.match of IT([1-4]) followed by three digits and a word
boundary, with the (redundant) 1..4 range re-check the code performs on the
captured group. -/
def deriveAcademicYear (course_code : String) : Option ℤ :=
  match course_code.data with
  | 'I' :: 'T' :: c1 :: c2 :: c3 :: c4 :: rest =>
      if ('1' ≤ c1 ∧ c1 ≤ '4') ∧ c2.isDigit ∧ c3.isDigit ∧ c4.isDigit ∧
          (match rest with | [] => true | c :: _ => !(isWordChar c)) = true then
        let ay : ℤ := (c1.toNat : ℤ) - ('0'.toNat : ℤ)
        if 1 ≤ ay ∧ ay ≤ 4 then some ay else none
      else none
  | _ => none

/-- The years_since quantity of calculate_recency: the academic-year branch
measures from the fixed current academic year 4, the year_taken branch from
the current calendar year (a parameter here, datetime.now().year in the
code); none means no temporal information, where the code uses the literal
recency 1.0. -/
def recencyYears (academic_year year_taken : Option ℤ) (currentYear : ℤ) :
    Option ℤ :=
  match academic_year with
  | some ay => some (max 0 (4 - ay))
  | none =>
      match year_taken with
      | some yt => some (max 0 (currentYear - yt))
      | none => none

/-- calculate_recency of skill_scoring.py: exp(-RECENCY_DECAY * years_since)
with RECENCY_DECAY = 0.4, or 1.0 with no temporal information. -/
def recencyK (K : Type) [LinearOrderedField K] (expK : K → K)
    (academic_year year_taken : Option ℤ) (currentYear : ℤ) : K :=
  match recencyYears academic_year year_taken currentYear with
  | some ys => expK (-(2/5 : K) * (ys : K))
  | none => 1

/-- academic_year as the evidence loop uses it: the stored value when
present, otherwise the course-code derivation. -/
def effectiveAcademicYear (c : CourseTaken) : Option ℤ :=
  match c.academic_year with
  | some ay => some ay
  | none => deriveAcademicYear c.course_code

/-- credits as the evidence loop uses them: DEFAULT_CREDITS = 3.0 when the
stored value is missing or zero (Python falsiness of course.credits). -/
def effectiveCredits (c : CourseTaken) : ℚ :=
  match c.credits with
  | none => 3
  | some cr => if cr = 0 then 3 else cr

/-- The evidence rows of one course of the student (the body of the course
loop of compute_claimed_skills): join against the skill map on course_code,
one row per mapping; a course with no mapping contributes nothing. -/
def courseEvidence (K : Type) [LinearOrderedField K] (expK : K → K)
    (currentYear : ℤ) (maps : List CourseSkillMap) (student_id : String)
    (c : CourseTaken) : List (SkillEvidenceRow K) :=
  let mappings := maps.filter fun m => decide (m.course_code = c.course_code)
  let grade_norm : ℚ := get_grade_points c.grade / 4
  let credits := effectiveCredits c
  let ay := effectiveAcademicYear c
  let recency := recencyK K expK ay c.year_taken currentYear
  mappings.map fun m =>
    let evidence_weight : K := (m.map_weight : K) * (credits : K) * recency
    { student_id := student_id
      skill_name := m.skill_name
      course_code := c.course_code
      map_weight := m.map_weight
      credits := credits
      grade := c.grade
      grade_norm := grade_norm
      academic_year := ay
      recency := recency
      evidence_weight := evidence_weight
      contribution := (grade_norm : K) * evidence_weight }

/-- evidence_data of compute_claimed_skills: all courses of the student. -/
def evidenceData (K : Type) [LinearOrderedField K] (expK : K → K)
    (currentYear : ℤ) (maps : List CourseSkillMap) (student_id : String)
    (courses : List CourseTaken) : List (SkillEvidenceRow K) :=
  (courses.map (courseEvidence K expK currentYear maps student_id)).flatten

/-- One update of the skill_aggregates dict for an evidence row: running
totals of contribution and evidence_weight. -/
def aggStep (K : Type) [LinearOrderedField K] (contribution evidence_weight : K)
    (o : Option (K × K)) : K × K :=
  let tot := o.getD (0, 0)
  (tot.1 + contribution, tot.2 + evidence_weight)

/-- skill_aggregates of compute_claimed_skills. -/
def skillAggregates (K : Type) [LinearOrderedField K]
    (rows : List (SkillEvidenceRow K)) : List (String × K × K) :=
  rows.foldl
    (fun ags r => dictUpsert ags r.skill_name (aggStep K r.contribution r.evidence_weight))
    []

/-- determine_skill_level of skill_scoring.py: same three-tier thresholds
as the quiz scorer. -/
def determine_skill_level (K : Type) [LinearOrderedField K] (score : K) :
    String :=
  if score < 50 then "Beginner"
  else if score < 75 then "Intermediate"
  else "Advanced"

/-- The claimed-score loop of compute_claimed_skills: a skill with zero
total evidence weight is skipped, any other yields one SkillProfileClaimed
row with score 100 * (total contribution / total weight) and confidence
1 - exp(-CONFIDENCE_FACTOR * total weight), CONFIDENCE_FACTOR = 0.25. -/
def claimedFromAggregates (K : Type) [LinearOrderedField K] [DecidableEq K]
    (expK : K → K) (student_id : String) (aggs : List (String × K × K)) :
    List (ClaimedSkillRow K) :=
  aggs.filterMap fun a =>
    if a.2.2 = 0 then none
    else
      let claimed_score : K := 100 * (a.2.1 / a.2.2)
      some { student_id := student_id
             skill_name := a.1
             claimed_score := claimed_score
             claimed_level := determine_skill_level K claimed_score
             confidence := 1 - expK (-(1/4 : K) * a.2.2) }

/-- compute_claimed_skills of skill_scoring.py: delete the prior
claimed and evidence rows, rebuild the evidence set from the course/skill
join, aggregate, and insert; a student with no courses or no evidence gets
the deletions only (zero skills computed, not an error).  The returned
summary dict and the score-descending sort of its claimed_skills list are
display-only and not modelled. -/
def compute_claimed_skills (K : Type) [LinearOrderedField K] [DecidableEq K]
    (expK : K → K) (currentYear : ℤ) (student_id : String) (db : SkillDB K) :
    SkillDB K :=
  let keptClaimed := db.claimed.filter fun r => !(decide (r.student_id = student_id))
  let keptEvidence := db.evidence.filter fun r => !(decide (r.student_id = student_id))
  let courses := db.courses.filter fun c => decide (c.student_id = student_id)
  if courses.isEmpty then
    { db with claimed := keptClaimed, evidence := keptEvidence }
  else
    let ev := evidenceData K expK currentYear db.maps student_id courses
    if ev.isEmpty then
      { db with claimed := keptClaimed, evidence := keptEvidence }
    else
      { db with
          claimed := keptClaimed ++
            claimedFromAggregates K expK student_id (skillAggregates K ev)
          evidence := keptEvidence ++ ev }

/-! ## Bank sampler (question_bank_service.py, sample_quiz_from_bank)

ORDER BY random() LIMIT n is modelled by an explicit selection oracle
sel : List BankQuestion → ℕ → List BankQuestion applied to the rows of the cell;
theorems that depend on how many rows a SELECT ... LIMIT n returns carry
the corresponding hypotheses on sel. -/

/-- Row of question_bank (models/question_bank.py; the columns the sampler
reads). -/
structure BankQuestion where
  id : ℕ
  skill_name : String
  difficulty : String
  question_text : String
  correct_option : String
  explanation : String
  deriving DecidableEq, Repr

/-- One (skill, difficulty) requirement slot of the flattened plan. -/
structure SlotRequirement where
  skill_name : String
  difficulty : String
  deriving DecidableEq, Repr

/-- The rows of one (skill, difficulty) cell of the bank. -/
def bankCell (bank : List BankQuestion) (skill difficulty : String) :
    List BankQuestion :=
  bank.filter fun q => decide (q.skill_name = skill ∧ q.difficulty = difficulty)

/-- The fixed fallback table of sample_quiz_from_bank, with the empty dict.get
default for an unknown difficulty. -/
def fallback_order (difficulty : String) : List String :=
  if difficulty = "hard" then ["medium", "easy"]
  else if difficulty = "medium" then ["easy", "hard"]
  else if difficulty = "easy" then ["medium", "hard"]
  else []

/-- The fallback walk of the empty-cell branch: the first fallback
difficulty whose cell is non-empty is sampled and the walk stops there
(the loop breaks on a positive count, whatever the SELECT then returns). -/
def fallbackSample (sel : List BankQuestion → ℕ → List BankQuestion)
    (bank : List BankQuestion) (skill : String) (n : ℕ) :
    List String → List BankQuestion × List String
  | [] => ([], [])
  | fd :: rest =>
      if (bankCell bank skill fd).length > 0 then
        (sel (bankCell bank skill fd) n,
         ["Used fallback difficulty " ++ fd ++ " for " ++ skill])
      else fallbackSample sel bank skill n rest

/-- The shortfall backfill of the some-but-not-enough branch: walk the same
fallback order, extending with whatever each fallback cell yields, stopping
once the remaining count reaches zero. -/
def backfill (sel : List BankQuestion → ℕ → List BankQuestion)
    (bank : List BankQuestion) (skill : String) :
    List String → ℕ → List BankQuestion × List String
  | [], _ => ([], [])
  | fd :: rest, remaining =>
      let fq := sel (bankCell bank skill fd) remaining
      if fq.isEmpty then backfill sel bank skill rest remaining
      else
        let remaining' := remaining - fq.length
        if remaining' = 0 then
          (fq, ["Filled " ++ fd ++ " for " ++ skill])
        else
          let more := backfill sel bank skill rest remaining'
          (fq ++ more.1, ("Filled " ++ fd ++ " for " ++ skill) :: more.2)

/-- One requirement slot of the sampling loop: an empty exact cell walks
the fallback cascade and is dropped with a warning when that too is empty;
a non-empty cell is sampled and a shortfall is backfilled from the same
cascade. -/
def sampleSlot (sel : List BankQuestion → ℕ → List BankQuestion)
    (bank : List BankQuestion) (n : ℕ) (req : SlotRequirement) :
    List BankQuestion × List String :=
  let skill := req.skill_name
  let difficulty := req.difficulty
  if (bankCell bank skill difficulty).length = 0 then
    let w0 := "No questions available for " ++ skill ++ " difficulty " ++ difficulty
    let fb := fallbackSample sel bank skill n (fallback_order difficulty)
    if fb.1.isEmpty then
      ([], w0 :: fb.2 ++ ["Skipping " ++ skill ++ " - no questions available in any difficulty"])
    else (fb.1, w0 :: fb.2)
  else
    let qs := sel (bankCell bank skill difficulty) n
    if qs.length < n then
      let extra := backfill sel bank skill (fallback_order difficulty) (n - qs.length)
      (qs ++ extra.1,
       ("Only some questions available for " ++ skill ++ " " ++ difficulty) :: extra.2)
    else (qs, [])

/-- The whole sampling loop over the requirement slots. -/
def sampleLoop (sel : List BankQuestion → ℕ → List BankQuestion)
    (bank : List BankQuestion) (n : ℕ) (reqs : List SlotRequirement) :
    List BankQuestion × List String :=
  reqs.foldl
    (fun acc req =>
      let slot := sampleSlot sel bank n req
      (acc.1 ++ slot.1, acc.2 ++ slot.2))
    ([], [])

/-- sample_quiz_from_bank: the request fails (HTTP 400, the EmptyBank
error) exactly when the loop sampled nothing at all; otherwise the sampled
questions and the accumulated warnings are returned. -/
def sample_quiz_from_bank (sel : List BankQuestion → ℕ → List BankQuestion)
    (bank : List BankQuestion) (reqs : List SlotRequirement) (n : ℕ) :
    Except String (List BankQuestion × List String) :=
  let r := sampleLoop sel bank n reqs
  if r.1.length = 0 then
    .error "Question bank has no matching questions for the quiz plan."
  else .ok r

/-! ## Lemmas about the insertion-ordered dict -/

theorem dictFind_upsert_self {α : Type} (m : List (String × α)) (k : String)
    (f : Option α → α) :
    dictFind (dictUpsert m k f) k = some (f (dictFind m k)) := by
  induction m with
  | nil => simp [dictUpsert, dictFind, List.find?]
  | cons p rest ih =>
      obtain ⟨k', v⟩ := p
      by_cases hk : k' = k
      · subst hk
        simp [dictUpsert, dictFind, List.find?]
      · simp only [dictUpsert, if_neg hk]
        simpa [dictFind, List.find?, hk] using ih

theorem dictFind_upsert_ne {α : Type} (m : List (String × α)) (k k' : String)
    (f : Option α → α) (h : k' ≠ k) :
    dictFind (dictUpsert m k f) k' = dictFind m k' := by
  have hkk : ¬ (k = k') := fun h' => h h'.symm
  induction m with
  | nil => simp [dictUpsert, dictFind, List.find?, hkk]
  | cons p rest ih =>
      obtain ⟨k₀, v⟩ := p
      by_cases hk : k₀ = k
      · subst hk
        simp [dictUpsert, dictFind, List.find?, hkk]
      · by_cases hk' : k₀ = k'
        · subst hk'
          simp [dictUpsert, if_neg hk, dictFind, List.find?]
        · simp only [dictUpsert, if_neg hk]
          simpa [dictFind, List.find?, hk'] using ih

theorem dictUpsert_keys {α : Type} (m : List (String × α)) (k : String)
    (f : Option α → α) :
    (dictUpsert m k f).map Prod.fst =
      if k ∈ m.map Prod.fst then m.map Prod.fst else m.map Prod.fst ++ [k] := by
  induction m with
  | nil => simp [dictUpsert]
  | cons p rest ih =>
      obtain ⟨k₀, v⟩ := p
      have hkcases : k = k₀ ∨ k ≠ k₀ := em _
      by_cases hk : k₀ = k
      · subst hk
        simp [dictUpsert]
      · have hkk : ¬ (k = k₀) := fun h' => hk h'.symm
        simp only [dictUpsert, if_neg hk, List.map_cons]
        rw [ih]
        by_cases hmem : k ∈ rest.map Prod.fst
        · simp [List.mem_cons, hmem, hkk]
        · simp [List.mem_cons, hmem, hkk]

theorem dictUpsert_keys_nodup {α : Type} (m : List (String × α)) (k : String)
    (f : Option α → α) (h : (m.map Prod.fst).Nodup) :
    ((dictUpsert m k f).map Prod.fst).Nodup := by
  rw [dictUpsert_keys]
  by_cases hmem : k ∈ m.map Prod.fst
  · simpa [hmem] using h
  · rw [if_neg hmem]
    rw [List.nodup_append]
    refine ⟨h, List.nodup_singleton k, ?_⟩
    intro a ha hak
    rw [List.mem_singleton] at hak
    exact hmem (hak ▸ ha)

theorem dictFind_foldl_upsert {α β : Type} (key : β → String)
    (step : β → Option α → α) :
    ∀ (l : List β) (m : List (String × α)) (k : String),
      dictFind (l.foldl (fun m b => dictUpsert m (key b) (step b)) m) k =
        l.foldl (fun o b => if key b = k then some (step b o) else o)
          (dictFind m k) := by
  intro l
  induction l with
  | nil => intro m k; rfl
  | cons b rest ih =>
      intro m k
      simp only [List.foldl_cons]
      rw [ih]
      by_cases hb : key b = k
      · rw [if_pos hb, hb, dictFind_upsert_self]
      · rw [if_neg hb, dictFind_upsert_ne _ _ _ _ (fun h => hb h.symm)]

theorem foldl_upsert_keys_nodup {α β : Type} (key : β → String)
    (step : β → Option α → α) :
    ∀ (l : List β) (m : List (String × α)), (m.map Prod.fst).Nodup →
      ((l.foldl (fun m b => dictUpsert m (key b) (step b)) m).map Prod.fst).Nodup := by
  intro l
  induction l with
  | nil => intro m h; simpa using h
  | cons b rest ih =>
      intro m h
      simp only [List.foldl_cons]
      exact ih _ (dictUpsert_keys_nodup _ _ _ h)

theorem dictFind_of_mem_nodup {α : Type} :
    ∀ (m : List (String × α)) (k : String) (v : α),
      (m.map Prod.fst).Nodup → (k, v) ∈ m → dictFind m k = some v := by
  intro m
  induction m with
  | nil => intro k v _ h; simp at h
  | cons p rest ih =>
      intro k v hnodup hmem
      obtain ⟨k₀, v₀⟩ := p
      rw [List.map_cons, List.nodup_cons] at hnodup
      rcases List.mem_cons.mp hmem with heq | htail
      · rw [Prod.mk.injEq] at heq
        obtain ⟨h1, h2⟩ := heq
        subst h1; subst h2
        simp [dictFind, List.find?]
      · have hkmem : k ∈ rest.map Prod.fst :=
          List.mem_map.mpr ⟨(k, v), htail, rfl⟩
        have hk : k₀ ≠ k := fun h => hnodup.1 (h ▸ hkmem)
        have := ih k v hnodup.2 htail
        simpa [dictFind, List.find?, hk] using this

/-! ## Lemmas about skill_stats -/

/-- The question count of the attempt for a skill. -/
def skillTotal (questions : List QuizQuestion) (s : String) : ℕ :=
  questions.countP fun q => decide (q.skill_name = s)

/-- The correctly-answered count of the attempt for a skill. -/
def skillCorrect (answers : List AnswerItem) (questions : List QuizQuestion)
    (s : String) : ℕ :=
  questions.countP fun q =>
    decide (q.skill_name = s) && (gradeQuestion answers q).2

theorem statStep_fold (answers : List AnswerItem) (s : String) :
    ∀ (qs : List QuizQuestion) (o : Option (ℕ × ℕ)),
      qs.foldl
          (fun o q =>
            if q.skill_name = s then
              some (statStep (gradeQuestion answers q).2 o)
            else o)
          o =
        match o with
        | some ct =>
            some (ct.1 + skillCorrect answers qs s, ct.2 + skillTotal qs s)
        | none =>
            if skillTotal qs s = 0 then none
            else some (skillCorrect answers qs s, skillTotal qs s) := by
  intro qs
  induction qs with
  | nil =>
      intro o
      cases o with
      | none => simp [skillTotal, skillCorrect]
      | some ct => simp [skillTotal, skillCorrect]
  | cons q rest ih =>
      intro o
      by_cases hq : q.skill_name = s
      · have hTot : skillTotal (q :: rest) s = skillTotal rest s + 1 := by
          simp [skillTotal, List.countP_cons, hq]
        have hCor : skillCorrect answers (q :: rest) s =
            skillCorrect answers rest s +
              (if (gradeQuestion answers q).2 then 1 else 0) := by
          by_cases hc : (gradeQuestion answers q).2
          · simp [skillCorrect, List.countP_cons, hq, hc]
          · simp [skillCorrect, List.countP_cons, hq, hc]
        rw [List.foldl_cons, if_pos hq, ih]
        cases o with
        | none =>
            rw [hTot, hCor]
            simp only [statStep, Option.getD_none]
            cases hrest : skillTotal rest s with
            | zero => simp [hrest]; omega
            | succ t => simp [hrest]; omega
        | some ct =>
            rw [hTot, hCor]
            simp only [statStep, Option.getD_some]
            simp
            omega
      · have hTot : skillTotal (q :: rest) s = skillTotal rest s := by
          simp [skillTotal, List.countP_cons, hq]
        have hCor : skillCorrect answers (q :: rest) s =
            skillCorrect answers rest s := by
          simp [skillCorrect, List.countP_cons, hq]
        rw [List.foldl_cons, if_neg hq, ih, hTot, hCor]

theorem dictFind_skillStats (answers : List AnswerItem)
    (questions : List QuizQuestion) (s : String) :
    dictFind (skillStats answers questions) s =
      if skillTotal questions s = 0 then none
      else some (skillCorrect answers questions s, skillTotal questions s) := by
  unfold skillStats
  rw [dictFind_foldl_upsert (fun q : QuizQuestion => q.skill_name)
    (fun q => statStep (gradeQuestion answers q).2) questions [] s]
  have h0 : dictFind ([] : List (String × ℕ × ℕ)) s = none := rfl
  rw [h0, statStep_fold]

theorem skillStats_keys_nodup (answers : List AnswerItem)
    (questions : List QuizQuestion) :
    ((skillStats answers questions).map Prod.fst).Nodup := by
  unfold skillStats
  exact foldl_upsert_keys_nodup _ _ questions [] (by simp)

/-! ## Lemmas about the portfolio upsert -/

/-- The first portfolio row for a (student, skill) pair, as the query-then-first
lookup of the upsert finds it. -/
def portfolioFind (port : List PortfolioRow) (student_id skill : String) :
    Option PortfolioRow :=
  port.find? fun p => decide (p.student_id = student_id ∧ p.skill_name = skill)

theorem portfolioRowFor_student_id (db : QuizDB) (sid s : String)
    (c t : ℕ) : (portfolioRowFor db sid s c t).student_id = sid := rfl

theorem portfolioRowFor_skill_name (db : QuizDB) (sid s : String)
    (c t : ℕ) : (portfolioRowFor db sid s c t).skill_name = s := rfl

theorem portfolioFind_upsert_self (port : List PortfolioRow)
    (row : PortfolioRow) :
    portfolioFind (upsertPortfolio port row) row.student_id row.skill_name =
      some row := by
  induction port with
  | nil => simp [upsertPortfolio, portfolioFind, List.find?]
  | cons p rest ih =>
      by_cases hp : p.student_id = row.student_id ∧ p.skill_name = row.skill_name
      · simp [upsertPortfolio, if_pos hp, portfolioFind, List.find?]
      · simp only [upsertPortfolio, if_neg hp]
        simpa [portfolioFind, List.find?, hp] using ih

theorem portfolioFind_upsert_ne (port : List PortfolioRow)
    (row : PortfolioRow) (sid s : String)
    (h : ¬ (row.student_id = sid ∧ row.skill_name = s)) :
    portfolioFind (upsertPortfolio port row) sid s = portfolioFind port sid s := by
  induction port with
  | nil => simp [upsertPortfolio, portfolioFind, List.find?, h]
  | cons p rest ih =>
      by_cases hp : p.student_id = row.student_id ∧ p.skill_name = row.skill_name
      · have hps : ¬ (p.student_id = sid ∧ p.skill_name = s) := by
          intro hcon
          exact h ⟨hp.1 ▸ hcon.1, hp.2 ▸ hcon.2⟩
        have hstep : upsertPortfolio (p :: rest) row = row :: rest := by
          simp [upsertPortfolio, hp]
        rw [hstep]
        simp [portfolioFind, List.find?, h, hps]
      · have hstep : upsertPortfolio (p :: rest) row = p :: upsertPortfolio rest row := by
          simp [upsertPortfolio, hp]
        rw [hstep]
        by_cases hps : p.student_id = sid ∧ p.skill_name = s
        · simp [portfolioFind, List.find?, hps]
        · simpa [portfolioFind, List.find?, hps] using ih

theorem portfolioFind_applyStats_ne (db : QuizDB) (sid : String) :
    ∀ (stats : List (String × ℕ × ℕ)) (port : List PortfolioRow) (s : String),
      (∀ p ∈ stats, p.1 ≠ s) →
      portfolioFind (applyStats db sid port stats) sid s =
        portfolioFind port sid s := by
  intro stats
  induction stats with
  | nil => intro port s _; rfl
  | cons stat rest ih =>
      intro port s hne
      have hstat : stat.1 ≠ s := hne stat (List.mem_cons_self _ _)
      have hrest : ∀ p ∈ rest, p.1 ≠ s := fun p hp => hne p (List.mem_cons_of_mem _ hp)
      show portfolioFind (applyStats db sid
        (upsertPortfolio port (portfolioRowFor db sid stat.1 stat.2.1 stat.2.2)) rest) sid s = _
      rw [ih _ s hrest]
      exact portfolioFind_upsert_ne _ _ _ _ (by
        rw [portfolioRowFor_student_id, portfolioRowFor_skill_name]
        intro hcon
        exact hstat hcon.2)

theorem portfolioFind_applyStats (db : QuizDB) (sid : String) :
    ∀ (stats : List (String × ℕ × ℕ)) (port : List PortfolioRow)
      (s : String) (c t : ℕ),
      ((stats.map Prod.fst).Nodup) →
      dictFind stats s = some (c, t) →
      portfolioFind (applyStats db sid port stats) sid s =
        some (portfolioRowFor db sid s c t) := by
  intro stats
  induction stats with
  | nil => intro port s c t _ hfind; simp [dictFind, List.find?] at hfind
  | cons stat rest ih =>
      intro port s c t hnodup hfind
      obtain ⟨k, v⟩ := stat
      rw [List.map_cons, List.nodup_cons] at hnodup
      by_cases hk : k = s
      · subst hk
        have hv : v = (c, t) := by
          simpa [dictFind, List.find?] using hfind
        subst hv
        show portfolioFind (applyStats db sid
          (upsertPortfolio port (portfolioRowFor db sid k c t)) rest) sid k = _
        rw [portfolioFind_applyStats_ne db sid rest _ k
          (fun p hp hcon => hnodup.1 (hcon ▸ List.mem_map.mpr ⟨p, hp, rfl⟩))]
        have := portfolioFind_upsert_self port (portfolioRowFor db sid k c t)
        rwa [portfolioRowFor_student_id, portfolioRowFor_skill_name] at this
      · have hfind' : dictFind rest s = some (c, t) := by
          simpa [dictFind, List.find?, hk] using hfind
        exact ih _ s c t hnodup.2 hfind'

/-! ## Inversion of a successful submission -/

/-- The QuizAnswer row score_quiz_attempt creates for one question. -/
def newAnswerRow (student_id : String) (attempt_id : ℤ)
    (answers : List AnswerItem) (q : QuizQuestion) : QuizAnswer :=
  let g := gradeQuestion answers q
  { attempt_id := attempt_id
    question_id := q.question_id
    student_id := student_id
    selected_option := g.1
    is_correct := g.2 }

theorem score_quiz_attempt_ok (db : QuizDB) (sid : String) (aid : ℤ)
    (answers : List AnswerItem) (db' : QuizDB)
    (h : score_quiz_attempt db sid aid answers = .ok db') :
    (attemptQuestions db sid aid).isEmpty = false ∧
    (answers.any fun a =>
      !(((attemptQuestions db sid aid).map (·.question_id)).contains a.question_id)) = false ∧
    db' = { db with
            quizAnswers :=
              (db.quizAnswers.filter fun qa =>
                !(decide (qa.attempt_id = aid ∧ qa.student_id = sid))) ++
              (attemptQuestions db sid aid).map (newAnswerRow sid aid answers)
            portfolio :=
              applyStats db sid db.portfolio
                (skillStats answers (attemptQuestions db sid aid)) } := by
  unfold score_quiz_attempt at h
  by_cases h1 : (attemptQuestions db sid aid).isEmpty
  · rw [if_pos h1] at h
    exact absurd h (by simp)
  · rw [if_neg h1] at h
    by_cases h2 : (answers.any fun a =>
        !(((attemptQuestions db sid aid).map (·.question_id)).contains a.question_id))
    · rw [if_pos h2] at h
      exact absurd h (by simp)
    · rw [if_neg h2] at h
      refine ⟨by simpa using h1, by simpa using h2, ?_⟩
      have := Except.ok.inj h
      rw [← this]
      rfl

/-! ## Claim C1: adaptive blending weights -/

/-- C1: for every successful quiz submission and every skill appearing in
the attempt's questions, the persisted portfolio row carries
w_quiz = min(0.50 + 0.05 n, 0.80) with n the attempt's question count for
that skill, w_claimed = 1 - w_quiz,
final_score = w_quiz * verified_score + w_claimed * claimed_score, the
claimed score looked up from the student's SkillProfileClaimed rows with
default 0; and w_quiz never exceeds 0.80. -/
theorem blender_adaptive_weights (db : QuizDB) (sid : String) (aid : ℤ)
    (answers : List AnswerItem) (db' : QuizDB)
    (h : score_quiz_attempt db sid aid answers = .ok db') (s : String)
    (hs : skillTotal (attemptQuestions db sid aid) s ≠ 0) :
    ∃ r, portfolioFind db'.portfolio sid s = some r ∧
      r.quiz_weight =
        min (1/2 + 1/20 * (skillTotal (attemptQuestions db sid aid) s : ℚ)) (4/5) ∧
      r.claimed_weight = 1 - r.quiz_weight ∧
      r.final_score = r.quiz_weight * r.verified_score +
        r.claimed_weight * r.claimed_score ∧
      r.claimed_score = claimedLookup db.claimedProfiles sid s ∧
      r.quiz_weight ≤ 4/5 := by
  obtain ⟨-, -, hdb⟩ := score_quiz_attempt_ok db sid aid answers db' h
  have hfind : dictFind (skillStats answers (attemptQuestions db sid aid)) s =
      some (skillCorrect answers (attemptQuestions db sid aid) s,
            skillTotal (attemptQuestions db sid aid) s) := by
    rw [dictFind_skillStats, if_neg hs]
  have hport := portfolioFind_applyStats db sid
    (skillStats answers (attemptQuestions db sid aid)) db.portfolio s
    (skillCorrect answers (attemptQuestions db sid aid) s)
    (skillTotal (attemptQuestions db sid aid) s)
    (skillStats_keys_nodup answers (attemptQuestions db sid aid)) hfind
  refine ⟨portfolioRowFor db sid s
      (skillCorrect answers (attemptQuestions db sid aid) s)
      (skillTotal (attemptQuestions db sid aid) s), ?_, rfl, rfl, rfl, rfl,
      min_le_right _ _⟩
  rw [hdb]
  exact hport

/-- Concrete instance of C1: the quiz attempt of the spec's second
scenario (three SQL questions, two answered correctly, claimed score 40). -/
def wQdb : QuizDB :=
  { quizQuestions :=
      [⟨1, 10, "stu", "SQL", "A"⟩, ⟨2, 10, "stu", "SQL", "B"⟩,
       ⟨3, 10, "stu", "SQL", "C"⟩]
    quizAnswers := []
    claimedProfiles := [⟨"stu", "SQL", 40⟩]
    portfolio := [] }

/-- The answers submitted in the concrete scenario. -/
def wAns : List AnswerItem := [⟨1, "A"⟩, ⟨2, "B"⟩, ⟨3, "A"⟩]

theorem blender_adaptive_weights_witness :
    score_quiz_attempt wQdb "stu" 10 wAns = .ok (submitResultDB wQdb "stu" 10 wAns) ∧
    skillTotal (attemptQuestions wQdb "stu" 10) "SQL" ≠ 0 ∧
    (∃ r, portfolioFind (submitResultDB wQdb "stu" 10 wAns).portfolio "stu" "SQL" = some r ∧
      r.quiz_weight =
        min (1/2 + 1/20 * (skillTotal (attemptQuestions wQdb "stu" 10) "SQL" : ℚ)) (4/5) ∧
      r.claimed_weight = 1 - r.quiz_weight ∧
      r.final_score = r.quiz_weight * r.verified_score +
        r.claimed_weight * r.claimed_score ∧
      r.claimed_score = claimedLookup wQdb.claimedProfiles "stu" "SQL" ∧
      r.quiz_weight ≤ 4/5) :=
  ⟨rfl, by decide,
   blender_adaptive_weights wQdb "stu" 10 wAns _ rfl "SQL" (by decide)⟩

/-! ## Claim C4: invalid question ids reject the whole submission -/

/-- C4: a submission containing any question_id that does not belong to the
named attempt for the named student fails with an error, and no QuizAnswer
or StudentSkillPortfolio row is created, deleted or modified (the database
slice is exactly what it was). -/
theorem invalid_question_id_rejects (db : QuizDB) (sid : String) (aid : ℤ)
    (answers : List AnswerItem)
    (h : ∃ a ∈ answers,
      a.question_id ∉ (attemptQuestions db sid aid).map (·.question_id)) :
    (∃ e, score_quiz_attempt db sid aid answers = .error e) ∧
    submitResultDB db sid aid answers = db := by
  by_cases h1 : (attemptQuestions db sid aid).isEmpty
  · have hsc : score_quiz_attempt db sid aid answers =
        .error "Quiz attempt not found for student" := by
      unfold score_quiz_attempt
      rw [if_pos h1]
    exact ⟨⟨_, hsc⟩, by unfold submitResultDB; rw [hsc]⟩
  · obtain ⟨a, ha, hnot⟩ := h
    have hany : (answers.any fun a =>
        !(((attemptQuestions db sid aid).map (·.question_id)).contains a.question_id)) = true := by
      rw [List.any_eq_true]
      exact ⟨a, ha, by simpa using hnot⟩
    have hsc : score_quiz_attempt db sid aid answers =
        .error "Invalid question_ids for this attempt" := by
      unfold score_quiz_attempt
      rw [if_neg h1, if_pos hany]
    exact ⟨⟨_, hsc⟩, by unfold submitResultDB; rw [hsc]⟩

theorem invalid_question_id_rejects_witness :
    (∃ a ∈ wAns.concat ⟨99, "A"⟩,
      a.question_id ∉ (attemptQuestions wQdb "stu" 10).map (·.question_id)) ∧
    ((∃ e, score_quiz_attempt wQdb "stu" 10 (wAns.concat ⟨99, "A"⟩) = .error e) ∧
      submitResultDB wQdb "stu" 10 (wAns.concat ⟨99, "A"⟩) = wQdb) :=
  ⟨by decide, invalid_question_id_rejects wQdb "stu" 10 _ (by decide)⟩

/-! ## Claim C5: unanswered questions count as incorrect; per-attempt
verified score -/

/-- C5: on every successful submission, each question of the attempt with
no submitted answer is recorded as a QuizAnswer row with the UNANSWERED
sentinel and is_correct = false, and it stays in the denominator: for every
skill of the attempt the persisted verified score is
100 * correct / total over exactly this attempt's questions for that
skill. -/
theorem unanswered_scored_incorrect (db : QuizDB) (sid : String) (aid : ℤ)
    (answers : List AnswerItem) (db' : QuizDB)
    (h : score_quiz_attempt db sid aid answers = .ok db') :
    (∀ q ∈ attemptQuestions db sid aid,
      answerLookup answers q.question_id = none →
      ({ attempt_id := aid, question_id := q.question_id, student_id := sid,
         selected_option := "UNANSWERED", is_correct := false } : QuizAnswer) ∈
        db'.quizAnswers) ∧
    (∀ s : String, skillTotal (attemptQuestions db sid aid) s ≠ 0 →
      ∃ r, portfolioFind db'.portfolio sid s = some r ∧
        r.verified_score =
          100 * (skillCorrect answers (attemptQuestions db sid aid) s : ℚ) /
            (skillTotal (attemptQuestions db sid aid) s : ℚ) ∧
        r.correct_count = skillCorrect answers (attemptQuestions db sid aid) s ∧
        r.total_questions = skillTotal (attemptQuestions db sid aid) s) := by
  obtain ⟨-, -, hdb⟩ := score_quiz_attempt_ok db sid aid answers db' h
  constructor
  · intro q hq hnone
    rw [hdb]
    show _ ∈ _ ++ _
    refine List.mem_append_right _ ?_
    have : newAnswerRow sid aid answers q =
        { attempt_id := aid, question_id := q.question_id, student_id := sid,
          selected_option := "UNANSWERED", is_correct := false } := by
      unfold newAnswerRow gradeQuestion
      rw [hnone]
    exact this ▸ List.mem_map.mpr ⟨q, hq, rfl⟩
  · intro s hs
    have hfind : dictFind (skillStats answers (attemptQuestions db sid aid)) s =
        some (skillCorrect answers (attemptQuestions db sid aid) s,
              skillTotal (attemptQuestions db sid aid) s) := by
      rw [dictFind_skillStats, if_neg hs]
    have hport := portfolioFind_applyStats db sid
      (skillStats answers (attemptQuestions db sid aid)) db.portfolio s
      (skillCorrect answers (attemptQuestions db sid aid) s)
      (skillTotal (attemptQuestions db sid aid) s)
      (skillStats_keys_nodup answers (attemptQuestions db sid aid)) hfind
    refine ⟨portfolioRowFor db sid s
        (skillCorrect answers (attemptQuestions db sid aid) s)
        (skillTotal (attemptQuestions db sid aid) s), ?_, ?_, rfl, rfl⟩
    · rw [hdb]
      exact hport
    · show (if 0 < skillTotal (attemptQuestions db sid aid) s then
          (100 : ℚ) * _ / _ else 0) = _
      rw [if_pos (Nat.pos_of_ne_zero hs)]

theorem unanswered_scored_incorrect_witness :
    score_quiz_attempt wQdb "stu" 10 [⟨1, "A"⟩] =
      .ok (submitResultDB wQdb "stu" 10 [⟨1, "A"⟩]) ∧
    ((∀ q ∈ attemptQuestions wQdb "stu" 10,
      answerLookup [⟨1, "A"⟩] q.question_id = none →
      ({ attempt_id := 10, question_id := q.question_id, student_id := "stu",
         selected_option := "UNANSWERED", is_correct := false } : QuizAnswer) ∈
        (submitResultDB wQdb "stu" 10 [⟨1, "A"⟩]).quizAnswers) ∧
    (∀ s : String, skillTotal (attemptQuestions wQdb "stu" 10) s ≠ 0 →
      ∃ r, portfolioFind (submitResultDB wQdb "stu" 10 [⟨1, "A"⟩]).portfolio "stu" s = some r ∧
        r.verified_score =
          100 * (skillCorrect [⟨1, "A"⟩] (attemptQuestions wQdb "stu" 10) s : ℚ) /
            (skillTotal (attemptQuestions wQdb "stu" 10) s : ℚ) ∧
        r.correct_count = skillCorrect [⟨1, "A"⟩] (attemptQuestions wQdb "stu" 10) s ∧
        r.total_questions = skillTotal (attemptQuestions wQdb "stu" 10) s)) :=
  ⟨rfl, unanswered_scored_incorrect wQdb "stu" 10 [⟨1, "A"⟩] _ rfl⟩

/-! ## Claim C6: resubmission idempotence -/

/-- Two portfolio rows with the same (student_id, skill_name) key. -/
def sameKey (a b : PortfolioRow) : Prop :=
  a.student_id = b.student_id ∧ a.skill_name = b.skill_name

theorem upsertPortfolio_idem (port : List PortfolioRow) (row : PortfolioRow) :
    upsertPortfolio (upsertPortfolio port row) row = upsertPortfolio port row := by
  induction port with
  | nil =>
      show upsertPortfolio [row] row = [row]
      simp [upsertPortfolio]
  | cons p rest ih =>
      by_cases hp : p.student_id = row.student_id ∧ p.skill_name = row.skill_name
      · have hstep : upsertPortfolio (p :: rest) row = row :: rest := by
          simp [upsertPortfolio, hp]
        rw [hstep]
        simp [upsertPortfolio]
      · have hstep : upsertPortfolio (p :: rest) row = p :: upsertPortfolio rest row := by
          simp [upsertPortfolio, hp]
        rw [hstep]
        have hstep2 : upsertPortfolio (p :: upsertPortfolio rest row) row =
            p :: upsertPortfolio (upsertPortfolio rest row) row := by
          simp [upsertPortfolio, hp]
        rw [hstep2, ih]

theorem upsertPortfolio_fixed_of_other (port : List PortfolioRow)
    (row r2 : PortfolioRow) (hne : ¬ sameKey r2 row)
    (hfm : upsertPortfolio port row = port) :
    upsertPortfolio (upsertPortfolio port r2) row = upsertPortfolio port r2 := by
  induction port with
  | nil => simp [upsertPortfolio] at hfm
  | cons p rest ih =>
      by_cases hp : p.student_id = row.student_id ∧ p.skill_name = row.skill_name
      · have hstep : upsertPortfolio (p :: rest) row = row :: rest := by
          simp [upsertPortfolio, hp]
        rw [hstep] at hfm
        have hprow : row = p := (List.cons.injEq .. ▸ hfm).1
        have hq : ¬ (p.student_id = r2.student_id ∧ p.skill_name = r2.skill_name) := by
          intro hcon
          exact hne ⟨(hprow ▸ hcon.1).symm, (hprow ▸ hcon.2).symm⟩
        have hstep2 : upsertPortfolio (p :: rest) r2 = p :: upsertPortfolio rest r2 := by
          simp [upsertPortfolio, hq]
        rw [hstep2]
        have hstep3 : upsertPortfolio (p :: upsertPortfolio rest r2) row =
            row :: upsertPortfolio rest r2 := by
          simp [upsertPortfolio, hp]
        rw [hstep3, hprow]
      · have hstep : upsertPortfolio (p :: rest) row = p :: upsertPortfolio rest row := by
          simp [upsertPortfolio, hp]
        rw [hstep] at hfm
        have hfm' : upsertPortfolio rest row = rest := (List.cons.injEq .. ▸ hfm).2
        by_cases hq : p.student_id = r2.student_id ∧ p.skill_name = r2.skill_name
        · have hstep2 : upsertPortfolio (p :: rest) r2 = r2 :: rest := by
            simp [upsertPortfolio, hq]
          rw [hstep2]
          have hr2 : ¬ (r2.student_id = row.student_id ∧ r2.skill_name = row.skill_name) := hne
          have hstep3 : upsertPortfolio (r2 :: rest) row = r2 :: upsertPortfolio rest row := by
            simp [upsertPortfolio, hr2]
          rw [hstep3, hfm']
        · have hstep2 : upsertPortfolio (p :: rest) r2 = p :: upsertPortfolio rest r2 := by
            simp [upsertPortfolio, hq]
          rw [hstep2]
          have hstep3 : upsertPortfolio (p :: upsertPortfolio rest r2) row =
              p :: upsertPortfolio (upsertPortfolio rest r2) row := by
            simp [upsertPortfolio, hp]
          rw [hstep3, ih hfm']

theorem applyStats_fixed_of_other (db : QuizDB) (sid : String)
    (row : PortfolioRow) :
    ∀ (stats : List (String × ℕ × ℕ)) (port : List PortfolioRow),
      (∀ p ∈ stats, ¬ (sid = row.student_id ∧ p.1 = row.skill_name)) →
      upsertPortfolio port row = port →
      upsertPortfolio (applyStats db sid port stats) row = applyStats db sid port stats := by
  intro stats
  induction stats with
  | nil => intro port _ hfm; exact hfm
  | cons stat rest ih =>
      intro port hne hfm
      show upsertPortfolio (applyStats db sid
        (upsertPortfolio port (portfolioRowFor db sid stat.1 stat.2.1 stat.2.2)) rest) row = _
      refine ih _ (fun p hp => hne p (List.mem_cons_of_mem _ hp)) ?_
      refine upsertPortfolio_fixed_of_other _ _ _ ?_ hfm
      intro hcon
      exact hne stat (List.mem_cons_self _ _)
        ⟨by rw [← portfolioRowFor_student_id db sid stat.1 stat.2.1 stat.2.2]; exact hcon.1,
         by rw [← portfolioRowFor_skill_name db sid stat.1 stat.2.1 stat.2.2]; exact hcon.2⟩

theorem applyStats_idem (db : QuizDB) (sid : String) :
    ∀ (stats : List (String × ℕ × ℕ)) (port : List PortfolioRow),
      ((stats.map Prod.fst).Nodup) →
      applyStats db sid (applyStats db sid port stats) stats =
        applyStats db sid port stats := by
  intro stats
  induction stats with
  | nil => intro port _; rfl
  | cons stat rest ih =>
      intro port hnodup
      rw [List.map_cons, List.nodup_cons] at hnodup
      show applyStats db sid (upsertPortfolio
          (applyStats db sid (upsertPortfolio port
            (portfolioRowFor db sid stat.1 stat.2.1 stat.2.2)) rest)
          (portfolioRowFor db sid stat.1 stat.2.1 stat.2.2)) rest = _
      have hfm : upsertPortfolio
          (applyStats db sid (upsertPortfolio port
            (portfolioRowFor db sid stat.1 stat.2.1 stat.2.2)) rest)
          (portfolioRowFor db sid stat.1 stat.2.1 stat.2.2) =
          applyStats db sid (upsertPortfolio port
            (portfolioRowFor db sid stat.1 stat.2.1 stat.2.2)) rest := by
        refine applyStats_fixed_of_other db sid _ rest _ ?_ (upsertPortfolio_idem _ _)
        intro p hp hcon
        rw [portfolioRowFor_skill_name] at hcon
        exact hnodup.1 (hcon.2 ▸ List.mem_map.mpr ⟨p, hp, rfl⟩)
      rw [hfm]
      exact ih _ hnodup.2

/-- C6: submitting the same attempt with the same answers twice yields
exactly the portfolio rows of the single submission, and the number of
QuizAnswer rows for the attempt after the second run equals the number
after the first (prior rows are replaced, never appended). -/
theorem resubmission_idempotent (db : QuizDB) (sid : String) (aid : ℤ)
    (answers : List AnswerItem) (db₁ : QuizDB)
    (h : score_quiz_attempt db sid aid answers = .ok db₁) :
    ∃ db₂, score_quiz_attempt db₁ sid aid answers = .ok db₂ ∧
      db₂.portfolio = db₁.portfolio ∧
      (db₂.quizAnswers.filter fun qa => decide (qa.attempt_id = aid)).length =
        (db₁.quizAnswers.filter fun qa => decide (qa.attempt_id = aid)).length := by
  obtain ⟨h1, h2, hdb⟩ := score_quiz_attempt_ok db sid aid answers db₁ h
  subst hdb
  have e1 : attemptQuestions { db with
      quizAnswers := (db.quizAnswers.filter fun qa =>
        !(decide (qa.attempt_id = aid ∧ qa.student_id = sid))) ++
        (attemptQuestions db sid aid).map (newAnswerRow sid aid answers)
      portfolio := applyStats db sid db.portfolio
        (skillStats answers (attemptQuestions db sid aid)) } sid aid =
      attemptQuestions db sid aid := rfl
  have hok : ∃ db₂, score_quiz_attempt { db with
      quizAnswers := (db.quizAnswers.filter fun qa =>
        !(decide (qa.attempt_id = aid ∧ qa.student_id = sid))) ++
        (attemptQuestions db sid aid).map (newAnswerRow sid aid answers)
      portfolio := applyStats db sid db.portfolio
        (skillStats answers (attemptQuestions db sid aid)) } sid aid answers = .ok db₂ := by
    unfold score_quiz_attempt
    rw [e1]
    simp only [h1, h2, Bool.false_eq_true, if_false]
    exact ⟨_, rfl⟩
  obtain ⟨db₂, hsc2⟩ := hok
  obtain ⟨-, -, hdb₂⟩ := score_quiz_attempt_ok _ sid aid answers db₂ hsc2
  subst hdb₂
  refine ⟨_, hsc2, ?_, ?_⟩
  · show applyStats _ sid
        (applyStats db sid db.portfolio (skillStats answers (attemptQuestions db sid aid)))
        (skillStats answers (attemptQuestions db sid aid)) =
      applyStats db sid db.portfolio (skillStats answers (attemptQuestions db sid aid))
    exact applyStats_idem db sid _ _
      (skillStats_keys_nodup answers (attemptQuestions db sid aid))
  · have hfilter2 : ((db.quizAnswers.filter fun qa =>
        !(decide (qa.attempt_id = aid ∧ qa.student_id = sid))).filter fun qa =>
          !(decide (qa.attempt_id = aid ∧ qa.student_id = sid))) =
        db.quizAnswers.filter fun qa =>
          !(decide (qa.attempt_id = aid ∧ qa.student_id = sid)) := by
      rw [List.filter_filter]
      congr 1
      funext qa
      exact Bool.and_self _
    have hfilternew : (((attemptQuestions db sid aid).map
        (newAnswerRow sid aid answers)).filter fun qa =>
          !(decide (qa.attempt_id = aid ∧ qa.student_id = sid))) = [] := by
      rw [List.filter_eq_nil_iff]
      intro qa hqa
      obtain ⟨q, -, hq⟩ := List.mem_map.mp hqa
      subst hq
      simp [newAnswerRow]
    have hKA : (((db.quizAnswers.filter fun qa =>
        !(decide (qa.attempt_id = aid ∧ qa.student_id = sid))) ++
        (attemptQuestions db sid aid).map (newAnswerRow sid aid answers)).filter fun qa =>
          !(decide (qa.attempt_id = aid ∧ qa.student_id = sid))) =
        db.quizAnswers.filter fun qa =>
          !(decide (qa.attempt_id = aid ∧ qa.student_id = sid)) := by
      rw [List.filter_append, hfilter2, hfilternew, List.append_nil]
    show (((((db.quizAnswers.filter fun qa =>
        !(decide (qa.attempt_id = aid ∧ qa.student_id = sid))) ++
        (attemptQuestions db sid aid).map (newAnswerRow sid aid answers)).filter fun qa =>
          !(decide (qa.attempt_id = aid ∧ qa.student_id = sid))) ++
        (attemptQuestions db sid aid).map (newAnswerRow sid aid answers)).filter
          (fun qa => decide (qa.attempt_id = aid))).length = _
    rw [hKA]

theorem resubmission_idempotent_witness :
    score_quiz_attempt wQdb "stu" 10 wAns = .ok (submitResultDB wQdb "stu" 10 wAns) ∧
    (∃ db₂, score_quiz_attempt (submitResultDB wQdb "stu" 10 wAns) "stu" 10 wAns = .ok db₂ ∧
      db₂.portfolio = (submitResultDB wQdb "stu" 10 wAns).portfolio ∧
      (db₂.quizAnswers.filter fun qa => decide (qa.attempt_id = 10)).length =
        ((submitResultDB wQdb "stu" 10 wAns).quizAnswers.filter fun qa =>
          decide (qa.attempt_id = 10)).length) :=
  ⟨rfl, resubmission_idempotent wQdb "stu" 10 wAns _ rfl⟩

/-! ## Claim C9: malformed answer options reject the whole request -/

/-- C9: a submission containing a selected_option outside A-D is rejected
as a validation error before the scoring service runs: the whole request
fails and no QuizAnswer row of the attempt is touched. -/
theorem malformed_option_rejects (db : QuizDB) (sid : String) (aid : ℤ)
    (answers : List AnswerItem)
    (h : ∃ a ∈ answers, matchesOptionPattern a.selected_option = false) :
    (∃ e, submit_quiz db sid aid answers = .error e) ∧
    routeResultDB db sid aid answers = db ∧
    (routeResultDB db sid aid answers).quizAnswers = db.quizAnswers := by
  have hany : (answers.any fun a => !(matchesOptionPattern a.selected_option)) = true := by
    rw [List.any_eq_true]
    obtain ⟨a, ha, hfa⟩ := h
    exact ⟨a, ha, by rw [hfa]; rfl⟩
  have hsc : submit_quiz db sid aid answers =
      .error "ValidationError: selected_option must match [A-D]" := by
    unfold submit_quiz
    rw [if_pos hany]
  refine ⟨⟨_, hsc⟩, ?_, ?_⟩
  · unfold routeResultDB
    rw [hsc]
  · unfold routeResultDB
    rw [hsc]

theorem malformed_option_rejects_witness :
    (∃ a ∈ [(⟨1, "E"⟩ : AnswerItem)], matchesOptionPattern a.selected_option = false) ∧
    ((∃ e, submit_quiz wQdb "stu" 10 [⟨1, "E"⟩] = .error e) ∧
     routeResultDB wQdb "stu" 10 [⟨1, "E"⟩] = wQdb ∧
     (routeResultDB wQdb "stu" 10 [⟨1, "E"⟩]).quizAnswers = wQdb.quizAnswers) :=
  ⟨by decide, malformed_option_rejects wQdb "stu" 10 [⟨1, "E"⟩] (by decide)⟩

/-! ## Claim C7: sampler error exactly on a fully empty result; fallback
cascade -/

theorem fallbackSample_questions (sel : List BankQuestion → ℕ → List BankQuestion)
    (bank : List BankQuestion) (skill : String) (n : ℕ) :
    ∀ (fds : List String),
      (fallbackSample sel bank skill n fds).1 =
        match fds.find? (fun fd => !((bankCell bank skill fd).isEmpty)) with
        | some fd => sel (bankCell bank skill fd) n
        | none => [] := by
  intro fds
  induction fds with
  | nil => rfl
  | cons fd rest ih =>
      by_cases hfd : (bankCell bank skill fd).length > 0
      · have hne : (!(bankCell bank skill fd).isEmpty) = true := by
          rcases hcell : bankCell bank skill fd with - | ⟨q, qs⟩
          · rw [hcell] at hfd; simp at hfd
          · rfl
        unfold fallbackSample
        rw [if_pos hfd]
        simp [List.find?, hne]
      · have hni : (!(bankCell bank skill fd).isEmpty) = false := by
          rcases hcell : bankCell bank skill fd with - | ⟨q, qs⟩
          · rfl
          · rw [hcell] at hfd; simp at hfd
        unfold fallbackSample
        rw [if_neg hfd]
        rw [ih]
        simp [List.find?, hni]

/-- C7: sample_quiz_from_bank raises the EmptyBank error exactly when zero
questions were sampled across all requirement slots; a slot whose exact
(skill, difficulty) cell is empty walks the fixed fallback order
(hard to medium then easy; medium to easy then hard; easy to medium then
hard) until a non-empty difficulty is found, and contributes nothing (is
dropped, not an error) when the whole cascade is empty. -/
theorem sampler_partial_fulfillment
    (sel : List BankQuestion → ℕ → List BankQuestion)
    (bank : List BankQuestion) (n : ℕ) (reqs : List SlotRequirement) :
    ((∃ e, sample_quiz_from_bank sel bank reqs n = .error e) ↔
      (sampleLoop sel bank n reqs).1 = []) ∧
    (∀ req : SlotRequirement,
      (bankCell bank req.skill_name req.difficulty).length = 0 →
      (sampleSlot sel bank n req).1 =
        (match (fallback_order req.difficulty).find?
            (fun fd => !((bankCell bank req.skill_name fd).isEmpty)) with
         | some fd => sel (bankCell bank req.skill_name fd) n
         | none => [])) ∧
    fallback_order "hard" = ["medium", "easy"] ∧
    fallback_order "medium" = ["easy", "hard"] ∧
    fallback_order "easy" = ["medium", "hard"] := by
  refine ⟨?_, ?_, rfl, rfl, rfl⟩
  · unfold sample_quiz_from_bank
    by_cases hz : (sampleLoop sel bank n reqs).1.length = 0
    · rw [if_pos hz]
      simp only [List.length_eq_zero] at hz
      exact ⟨fun _ => hz, fun _ => ⟨_, rfl⟩⟩
    · rw [if_neg hz]
      constructor
      · rintro ⟨e, he⟩
        exact absurd he (by simp)
      · intro hnil
        exact absurd (hnil ▸ rfl) hz
  · intro req hcell
    have hfb := fallbackSample_questions sel bank req.skill_name n
      (fallback_order req.difficulty)
    simp only [sampleSlot]
    rw [if_pos hcell]
    by_cases hempty :
        (fallbackSample sel bank req.skill_name n (fallback_order req.difficulty)).1.isEmpty
    · rw [if_pos hempty]
      rw [← hfb]
      exact (List.isEmpty_iff.mp hempty).symm
    · rw [if_neg hempty]
      exact hfb

/-- The spec's sampler scenario: a bank holding only one medium SQL
question while a hard SQL slot is requested. -/
def wBank : List BankQuestion := [⟨1, "SQL", "medium", "q", "A", "e"⟩]

/-- A well-behaved stand-in for ORDER BY random() LIMIT n. -/
def wSel : List BankQuestion → ℕ → List BankQuestion := fun l n => l.take n

theorem sampler_partial_fulfillment_witness :
    (bankCell wBank "SQL" "hard").length = 0 ∧
    (sampleSlot wSel wBank 2 ⟨"SQL", "hard"⟩).1 =
      (match (fallback_order "hard").find?
          (fun fd => !((bankCell wBank "SQL" fd).isEmpty)) with
       | some fd => wSel (bankCell wBank "SQL" fd) 2
       | none => []) :=
  ⟨by decide,
   (sampler_partial_fulfillment wSel wBank 2 [⟨"SQL", "hard"⟩]).2.1
     ⟨"SQL", "hard"⟩ (by decide)⟩

/-! ## Claim C2: recency decay -/

/-- A course with no stored academic_year whose course code matches the
IT[1-4]ddd pattern: the evidence builder derives academic year 1 from the
code instead of falling back to the year_taken decay. -/
def c2course : CourseTaken :=
  { student_id := "s1"
    course_code := "IT1010"
    grade := "A"
    year_taken := some 2020
    credits := some 3
    academic_year := none }

/-- Counterexample to C2 as stated: for a course record with missing
academic_year, the recency the evidence builder uses is NOT the
year-taken-based decay exp(-0.4 * (currentYear - year_taken)); the course
code IT1010 makes the builder derive academic year 1 and use the
academic-year decay instead. -/
theorem recency_fallback_counterexample :
    c2course.academic_year = none ∧
    c2course.year_taken = some 2020 ∧
    recencyK ℝ Real.exp (effectiveAcademicYear c2course) c2course.year_taken 2026 ≠
      Real.exp (-(2/5) * ((2026 - 2020 : ℤ) : ℝ)) := by
  refine ⟨rfl, rfl, ?_⟩
  rw [show effectiveAcademicYear c2course = some 1 from by decide]
  show Real.exp (-(2/5 : ℝ) * ((max 0 (4 - 1) : ℤ) : ℝ)) ≠ _
  rw [Ne, Real.exp_eq_exp]
  have h3 : (max 0 (4 - 1) : ℤ) = 3 := rfl
  rw [h3]
  intro hcon
  have : ((3:ℤ) : ℝ) = ((2026 - 2020 : ℤ) : ℝ) := by
    have h25 : (-(2/5) : ℝ) ≠ 0 := by norm_num
    exact mul_left_cancel₀ h25 hcon
  norm_num at this

theorem recencyYears_nonneg (ay yt : Option ℤ) (cy : ℤ) (ys : ℤ)
    (h : recencyYears ay yt cy = some ys) : 0 ≤ ys := by
  unfold recencyYears at h
  cases ay with
  | some a =>
      have := Option.some.inj h
      rw [← this]
      exact le_max_left _ _
  | none =>
      cases yt with
      | some t =>
          have := Option.some.inj h
          rw [← this]
          exact le_max_left _ _
      | none => exact absurd h (by simp)

theorem recencyK_bounds (ay yt : Option ℤ) (cy : ℤ) :
    0 < recencyK ℝ Real.exp ay yt cy ∧ recencyK ℝ Real.exp ay yt cy ≤ 1 := by
  unfold recencyK
  rcases hys : recencyYears ay yt cy with - | ys
  · norm_num
  · constructor
    · exact Real.exp_pos _
    · apply Real.exp_le_one_iff.mpr
      have hy := recencyYears_nonneg ay yt cy ys hys
      have hyr : (0:ℝ) ≤ (ys : ℝ) := by exact_mod_cast hy
      nlinarith

/-- C2 amended: the academic-year recency applies whenever the record
carries an academic_year OR one is derivable from the course code
(IT[1-4]ddd); only otherwise does a present year_taken give the
calendar-year decay, and with no temporal information at all the recency is
the literal 1.0.  In every case the recency lies in (0, 1]. -/
theorem recency_amended (c : CourseTaken) (cy : ℤ) :
    (∀ ay, effectiveAcademicYear c = some ay →
      recencyK ℝ Real.exp (effectiveAcademicYear c) c.year_taken cy =
        Real.exp (-(2/5) * ((max 0 (4 - ay) : ℤ) : ℝ))) ∧
    (effectiveAcademicYear c = none → ∀ yt, c.year_taken = some yt →
      recencyK ℝ Real.exp (effectiveAcademicYear c) c.year_taken cy =
        Real.exp (-(2/5) * ((max 0 (cy - yt) : ℤ) : ℝ))) ∧
    (effectiveAcademicYear c = none → c.year_taken = none →
      recencyK ℝ Real.exp (effectiveAcademicYear c) c.year_taken cy = 1) ∧
    0 < recencyK ℝ Real.exp (effectiveAcademicYear c) c.year_taken cy ∧
    recencyK ℝ Real.exp (effectiveAcademicYear c) c.year_taken cy ≤ 1 := by
  refine ⟨?_, ?_, ?_,
    (recencyK_bounds (effectiveAcademicYear c) c.year_taken cy).1,
    (recencyK_bounds (effectiveAcademicYear c) c.year_taken cy).2⟩
  · intro ay hay
    rw [hay]
    rfl
  · intro hnone yt hyt
    rw [hnone, hyt]
    rfl
  · intro h1 h2
    rw [h1, h2]
    rfl

/-- A course with no temporal information at all. -/
def wCourseNoTime : CourseTaken :=
  { student_id := "s1"
    course_code := "MATH101"
    grade := "A"
    year_taken := none
    credits := none
    academic_year := none }

theorem recency_amended_witness :
    effectiveAcademicYear wCourseNoTime = none ∧
    wCourseNoTime.year_taken = none ∧
    recencyK ℝ Real.exp (effectiveAcademicYear wCourseNoTime)
      wCourseNoTime.year_taken 2025 = 1 :=
  ⟨by decide, rfl,
   (recency_amended wCourseNoTime 2025).2.2.1 (by decide) rfl⟩

/-! ## Lemmas about the evidence aggregation -/

/-- Sum of evidence_weight over the rows of one skill. -/
def weightSum (K : Type) [LinearOrderedField K]
    (rows : List (SkillEvidenceRow K)) (s : String) : K :=
  ((rows.filter fun r => decide (r.skill_name = s)).map (·.evidence_weight)).sum

/-- Sum of contribution over the rows of one skill. -/
def contribSum (K : Type) [LinearOrderedField K]
    (rows : List (SkillEvidenceRow K)) (s : String) : K :=
  ((rows.filter fun r => decide (r.skill_name = s)).map (·.contribution)).sum

/-- Sum of evidence_weight over the rows of one (student, skill) pair. -/
def weightSumFor (K : Type) [LinearOrderedField K]
    (rows : List (SkillEvidenceRow K)) (sid s : String) : K :=
  ((rows.filter fun r =>
    decide (r.student_id = sid ∧ r.skill_name = s)).map (·.evidence_weight)).sum

theorem aggStep_fold (K : Type) [LinearOrderedField K] (s : String) :
    ∀ (rows : List (SkillEvidenceRow K)) (o : Option (K × K)),
      rows.foldl
          (fun o r =>
            if r.skill_name = s then
              some (aggStep K r.contribution r.evidence_weight o)
            else o)
          o =
        match o with
        | some tot => some (tot.1 + contribSum K rows s, tot.2 + weightSum K rows s)
        | none =>
            if rows.countP (fun r => decide (r.skill_name = s)) = 0 then none
            else some (contribSum K rows s, weightSum K rows s) := by
  intro rows
  induction rows with
  | nil =>
      intro o
      cases o with
      | none => simp [contribSum, weightSum]
      | some tot => simp [contribSum, weightSum]
  | cons r rest ih =>
      intro o
      by_cases hr : r.skill_name = s
      · have hT : contribSum K (r :: rest) s = r.contribution + contribSum K rest s := by
          simp [contribSum, List.filter_cons, hr]
        have hW : weightSum K (r :: rest) s = r.evidence_weight + weightSum K rest s := by
          simp [weightSum, List.filter_cons, hr]
        have hC : ((r :: rest).countP fun r => decide (r.skill_name = s)) =
            (rest.countP fun r => decide (r.skill_name = s)) + 1 := by
          simp [List.countP_cons, hr]
        rw [List.foldl_cons, if_pos hr, ih]
        cases o with
        | none =>
            rw [hT, hW, hC]
            simp only [aggStep, Option.getD_none]
            have : (rest.countP fun r => decide (r.skill_name = s)) + 1 ≠ 0 :=
              Nat.succ_ne_zero _
            rw [if_neg this]
            simp only [Option.some.injEq, Prod.mk.injEq]
            constructor <;> ring
        | some tot =>
            rw [hT, hW]
            simp only [aggStep, Option.getD_some]
            simp only [Option.some.injEq, Prod.mk.injEq]
            constructor <;> ring
      · have hT : contribSum K (r :: rest) s = contribSum K rest s := by
          simp [contribSum, List.filter_cons, hr]
        have hW : weightSum K (r :: rest) s = weightSum K rest s := by
          simp [weightSum, List.filter_cons, hr]
        have hC : ((r :: rest).countP fun r => decide (r.skill_name = s)) =
            (rest.countP fun r => decide (r.skill_name = s)) := by
          simp [List.countP_cons, hr]
        rw [List.foldl_cons, if_neg hr, ih, hT, hW, hC]

theorem dictFind_skillAggregates (K : Type) [LinearOrderedField K]
    (rows : List (SkillEvidenceRow K)) (s : String) :
    dictFind (skillAggregates K rows) s =
      if rows.countP (fun r => decide (r.skill_name = s)) = 0 then none
      else some (contribSum K rows s, weightSum K rows s) := by
  unfold skillAggregates
  rw [dictFind_foldl_upsert (fun r : SkillEvidenceRow K => r.skill_name)
    (fun r => aggStep K r.contribution r.evidence_weight) rows [] s]
  have h0 : dictFind ([] : List (String × K × K)) s = none := rfl
  rw [h0, aggStep_fold]

theorem skillAggregates_keys_nodup (K : Type) [LinearOrderedField K]
    (rows : List (SkillEvidenceRow K)) :
    ((skillAggregates K rows).map Prod.fst).Nodup := by
  unfold skillAggregates
  exact foldl_upsert_keys_nodup _ _ rows [] (by simp)

theorem dictFind_mem {α : Type} (m : List (String × α)) (k : String) (v : α)
    (h : dictFind m k = some v) : (k, v) ∈ m := by
  unfold dictFind at h
  rcases hf : m.find? fun p => decide (p.1 = k) with - | p
  · rw [hf] at h; simp at h
  · rw [hf] at h
    have hp2 : p.2 = v := by simpa using h
    have hmem := List.mem_of_find?_eq_some hf
    have hp1 : p.1 = k := by
      have := List.find?_some hf
      simpa using this
    have : (k, v) = p := by
      rw [← hp1, ← hp2]
    rw [this]
    exact hmem

theorem evidenceData_student (K : Type) [LinearOrderedField K] (expK : K → K)
    (cy : ℤ) (maps : List CourseSkillMap) (sid : String)
    (courses : List CourseTaken) :
    ∀ r ∈ evidenceData K expK cy maps sid courses, r.student_id = sid := by
  intro r hr
  unfold evidenceData at hr
  rw [List.mem_flatten] at hr
  obtain ⟨l, hl, hrl⟩ := hr
  rw [List.mem_map] at hl
  obtain ⟨c, -, hc⟩ := hl
  subst hc
  unfold courseEvidence at hrl
  rw [List.mem_map] at hrl
  obtain ⟨m, -, hm⟩ := hrl
  rw [← hm]

theorem mem_claimedFromAggregates (K : Type) [LinearOrderedField K]
    [DecidableEq K] (expK : K → K) (sid : String) (aggs : List (String × K × K))
    (r : ClaimedSkillRow K) :
    r ∈ claimedFromAggregates K expK sid aggs ↔
      ∃ a ∈ aggs, a.2.2 ≠ 0 ∧
        r = { student_id := sid
              skill_name := a.1
              claimed_score := 100 * (a.2.1 / a.2.2)
              claimed_level := determine_skill_level K (100 * (a.2.1 / a.2.2))
              confidence := 1 - expK (-(1/4 : K) * a.2.2) } := by
  unfold claimedFromAggregates
  rw [List.mem_filterMap]
  constructor
  · rintro ⟨a, ha, hfa⟩
    by_cases hz : a.2.2 = 0
    · rw [if_pos hz] at hfa; exact absurd hfa (by simp)
    · rw [if_neg hz] at hfa
      refine ⟨a, ha, hz, ?_⟩
      have := Option.some.inj hfa
      rw [← this]
  · rintro ⟨a, ha, hz, hr⟩
    refine ⟨a, ha, ?_⟩
    rw [if_neg hz, hr]

/-- The two outcomes of compute_claimed_skills: with an empty evidence set
only the deletions happen, otherwise the new claimed and evidence rows are
appended to the other students' remainder. -/
theorem compute_claimed_skills_cases (K : Type) [LinearOrderedField K]
    [DecidableEq K] (expK : K → K) (cy : ℤ) (sid : String) (db : SkillDB K) :
    (compute_claimed_skills K expK cy sid db =
      { db with
          claimed := db.claimed.filter fun r => !(decide (r.student_id = sid))
          evidence := db.evidence.filter fun r => !(decide (r.student_id = sid)) } ∧
      evidenceData K expK cy db.maps sid
        (db.courses.filter fun c => decide (c.student_id = sid)) = []) ∨
    compute_claimed_skills K expK cy sid db =
      { db with
          claimed := (db.claimed.filter fun r => !(decide (r.student_id = sid))) ++
            claimedFromAggregates K expK sid (skillAggregates K
              (evidenceData K expK cy db.maps sid
                (db.courses.filter fun c => decide (c.student_id = sid))))
          evidence := (db.evidence.filter fun r => !(decide (r.student_id = sid))) ++
            evidenceData K expK cy db.maps sid
              (db.courses.filter fun c => decide (c.student_id = sid)) } := by
  by_cases h1 : (db.courses.filter fun c => decide (c.student_id = sid)).isEmpty
  · left
    constructor
    · unfold compute_claimed_skills
      rw [if_pos h1]
    · rw [List.isEmpty_iff.mp h1]
      rfl
  · by_cases h2 : (evidenceData K expK cy db.maps sid
        (db.courses.filter fun c => decide (c.student_id = sid))).isEmpty
    · left
      constructor
      · unfold compute_claimed_skills
        rw [if_neg h1, if_pos h2]
      · exact List.isEmpty_iff.mp h2
    · right
      unfold compute_claimed_skills
      rw [if_neg h1, if_neg h2]

/-- The heart of the no-evidence invariant: after a recompute, a claimed
row for (student, skill) exists exactly when the student's evidence rows
for that skill have a nonzero total evidence weight. -/
theorem claimed_iff_weightSumFor (K : Type) [LinearOrderedField K]
    [DecidableEq K] (expK : K → K) (cy : ℤ) (sid : String) (db : SkillDB K)
    (s : String) :
    ((∃ r ∈ (compute_claimed_skills K expK cy sid db).claimed,
        r.student_id = sid ∧ r.skill_name = s) ↔
      weightSumFor K (compute_claimed_skills K expK cy sid db).evidence sid s ≠ 0) := by
  have hkeptC : ∀ (l : List (ClaimedSkillRow K)),
      ¬ ∃ r ∈ l.filter fun r => !(decide (r.student_id = sid)),
        r.student_id = sid ∧ r.skill_name = s := by
    rintro l ⟨r, hr, hsid, -⟩
    rw [List.mem_filter] at hr
    simp only [Bool.not_eq_true', decide_eq_false_iff_not] at hr
    exact hr.2 hsid
  have hkeptE : ∀ (l : List (SkillEvidenceRow K)),
      ((l.filter fun r => !(decide (r.student_id = sid))).filter fun r =>
        decide (r.student_id = sid ∧ r.skill_name = s)) = [] := by
    intro l
    rw [List.filter_eq_nil_iff]
    intro r hr hcon
    rw [List.mem_filter] at hr
    simp only [Bool.not_eq_true', decide_eq_false_iff_not] at hr
    rw [decide_eq_true_iff] at hcon
    exact hr.2 hcon.1
  rcases compute_claimed_skills_cases K expK cy sid db with ⟨hdb, -⟩ | hdb
  · rw [hdb]
    constructor
    · intro h
      exact absurd h (hkeptC db.claimed)
    · intro h
      exfalso
      apply h
      unfold weightSumFor
      rw [hkeptE db.evidence]
      rfl
  · rw [hdb]
    have hWf : weightSumFor K
        ((db.evidence.filter fun r => !(decide (r.student_id = sid))) ++
          evidenceData K expK cy db.maps sid
            (db.courses.filter fun c => decide (c.student_id = sid))) sid s =
        weightSum K (evidenceData K expK cy db.maps sid
          (db.courses.filter fun c => decide (c.student_id = sid))) s := by
      unfold weightSumFor weightSum
      rw [List.filter_append, hkeptE db.evidence, List.nil_append]
      rw [List.filter_congr fun r hr => ?_]
      have hsid := evidenceData_student K expK cy db.maps sid _ r hr
      simp [hsid]
    rw [hWf]
    constructor
    · rintro ⟨r, hr, hsid, hskill⟩
      rcases List.mem_append.mp hr with hk | hn
      · exact absurd ⟨r, hk, hsid, hskill⟩ (hkeptC db.claimed)
      · rw [mem_claimedFromAggregates] at hn
        obtain ⟨a, ha, hz, hreq⟩ := hn
        have hskill' : a.1 = s := by rw [hreq] at hskill; exact hskill
        have hfind : dictFind (skillAggregates K
            (evidenceData K expK cy db.maps sid
              (db.courses.filter fun c => decide (c.student_id = sid)))) s =
            some a.2 := by
          rw [← hskill']
          exact dictFind_of_mem_nodup _ _ _
            (skillAggregates_keys_nodup K _) (by exact ha)
        rw [dictFind_skillAggregates] at hfind
        by_cases hcount : ((evidenceData K expK cy db.maps sid
            (db.courses.filter fun c => decide (c.student_id = sid))).countP
              fun r => decide (r.skill_name = s)) = 0
        · rw [if_pos hcount] at hfind
          exact absurd hfind (by simp)
        · rw [if_neg hcount] at hfind
          have ha2 : a.2 = (contribSum K _ s, weightSum K _ s) :=
            (Option.some.inj hfind).symm
          intro hW
          apply hz
          rw [ha2, hW]
    · intro hW
      have hcount : ((evidenceData K expK cy db.maps sid
          (db.courses.filter fun c => decide (c.student_id = sid))).countP
            fun r => decide (r.skill_name = s)) ≠ 0 := by
        intro h0
        apply hW
        unfold weightSum
        rw [List.countP_eq_zero] at h0
        rw [List.filter_eq_nil_iff.mpr h0]
        rfl
      have hfind : dictFind (skillAggregates K
          (evidenceData K expK cy db.maps sid
            (db.courses.filter fun c => decide (c.student_id = sid)))) s =
          some (contribSum K (evidenceData K expK cy db.maps sid
              (db.courses.filter fun c => decide (c.student_id = sid))) s,
            weightSum K (evidenceData K expK cy db.maps sid
              (db.courses.filter fun c => decide (c.student_id = sid))) s) := by
        rw [dictFind_skillAggregates, if_neg hcount]
      have hmem := dictFind_mem _ _ _ hfind
      refine ⟨_, List.mem_append_right _
        ((mem_claimedFromAggregates K expK sid _ _).mpr
          ⟨(s, contribSum K (evidenceData K expK cy db.maps sid
              (db.courses.filter fun c => decide (c.student_id = sid))) s,
            weightSum K (evidenceData K expK cy db.maps sid
              (db.courses.filter fun c => decide (c.student_id = sid))) s),
           hmem, hW, rfl⟩), rfl, rfl⟩

/-! ## Claim C3: claimed-profile existence versus evidence existence -/

/-- The course of the C3 counterexample. -/
def c3course : CourseTaken :=
  { student_id := "s1"
    course_code := "CS1"
    grade := "A"
    year_taken := none
    credits := some 3
    academic_year := some 4 }

/-- A mapping with weight zero: legal input (map_weight lies in [0,1]). -/
def c3map : CourseSkillMap :=
  { course_code := "CS1", skill_name := "Prog", map_weight := 0 }

/-- Database of the C3 counterexample. -/
def c3db : SkillDB ℝ :=
  { courses := [c3course], maps := [c3map], evidence := [], claimed := [] }

theorem courseEvidence_single (K : Type) [LinearOrderedField K]
    (expK : K → K) (cy : ℤ) (m : CourseSkillMap) (sid : String)
    (c : CourseTaken) (hm : m.course_code = c.course_code) :
    courseEvidence K expK cy [m] sid c =
      [{ student_id := sid
         skill_name := m.skill_name
         course_code := c.course_code
         map_weight := m.map_weight
         credits := effectiveCredits c
         grade := c.grade
         grade_norm := get_grade_points c.grade / 4
         academic_year := effectiveAcademicYear c
         recency := recencyK K expK (effectiveAcademicYear c) c.year_taken cy
         evidence_weight := (m.map_weight : K) * ((effectiveCredits c : ℚ) : K) *
           recencyK K expK (effectiveAcademicYear c) c.year_taken cy
         contribution := ((get_grade_points c.grade / 4 : ℚ) : K) *
           ((m.map_weight : K) * ((effectiveCredits c : ℚ) : K) *
             recencyK K expK (effectiveAcademicYear c) c.year_taken cy) }] := by
  unfold courseEvidence
  rw [show ([m].filter fun m' => decide (m'.course_code = c.course_code)) = [m] from by
    simp [hm]]
  rfl

theorem skillAggregates_singleton (K : Type) [LinearOrderedField K]
    (r : SkillEvidenceRow K) :
    skillAggregates K [r] =
      [(r.skill_name, (0 + r.contribution, 0 + r.evidence_weight))] := rfl

theorem claimedFromAggregates_singleton_zero (K : Type) [LinearOrderedField K]
    [DecidableEq K] (expK : K → K) (sid k : String) (c w : K) (hw : w = 0) :
    claimedFromAggregates K expK sid [(k, (c, w))] = [] := by
  simp [claimedFromAggregates, hw]

/-- Counterexample to C3 as stated: after recomputing skills for the
student of c3db, a SkillEvidence row for (s1, Prog) exists while no
SkillProfileClaimed row for (s1, Prog) does — the iff of the claim fails
whenever a skill's evidence rows sum to zero weight (here via a weight-0
course-skill mapping). -/
theorem no_evidence_invariant_counterexample :
    (∃ r ∈ (compute_claimed_skills ℝ Real.exp 2025 "s1" c3db).evidence,
       r.student_id = "s1" ∧ r.skill_name = "Prog") ∧
    ¬ (∃ r ∈ (compute_claimed_skills ℝ Real.exp 2025 "s1" c3db).claimed,
       r.student_id = "s1" ∧ r.skill_name = "Prog") := by
  have hmaps : c3db.maps = [c3map] := rfl
  have hrow := courseEvidence_single ℝ Real.exp 2025 c3map "s1" c3course rfl
  have hone : evidenceData ℝ Real.exp 2025 c3db.maps "s1"
      (c3db.courses.filter fun c => decide (c.student_id = "s1")) =
      courseEvidence ℝ Real.exp 2025 [c3map] "s1" c3course := rfl
  have hform : compute_claimed_skills ℝ Real.exp 2025 "s1" c3db =
      { c3db with
          claimed := claimedFromAggregates ℝ Real.exp "s1"
            (skillAggregates ℝ (courseEvidence ℝ Real.exp 2025 [c3map] "s1" c3course))
          evidence := courseEvidence ℝ Real.exp 2025 [c3map] "s1" c3course } := by
    rcases compute_claimed_skills_cases ℝ Real.exp 2025 "s1" c3db with ⟨-, hev⟩ | hdb
    · rw [hone, hrow] at hev
      exact absurd hev (by simp)
    · rw [hdb]
      rw [hone]
      rfl
  rw [hform]
  constructor
  · rw [hrow]
    exact ⟨_, List.mem_cons_self _ _, rfl, rfl⟩
  · rw [hrow, skillAggregates_singleton]
    rw [claimedFromAggregates_singleton_zero ℝ Real.exp "s1" _ _ _ (by
      show (0:ℝ) + ((c3map.map_weight : ℚ) : ℝ) * _ * _ = 0
      rw [show c3map.map_weight = 0 from rfl]
      push_cast
      ring)]
    simp

/-- C3 amended: after recompute_skills, a SkillProfileClaimed row exists
for (student, skill) exactly when the student's SkillEvidence rows for that
skill sum to a nonzero total evidence weight; in particular a skill whose
rows sum to zero weight keeps its evidence rows but is absent from
SkillProfileClaimed. -/
theorem no_evidence_invariant_amended (cy : ℤ) (sid : String)
    (db : SkillDB ℝ) (s : String) :
    ((∃ r ∈ (compute_claimed_skills ℝ Real.exp cy sid db).claimed,
        r.student_id = sid ∧ r.skill_name = s) ↔
      weightSumFor ℝ (compute_claimed_skills ℝ Real.exp cy sid db).evidence sid s ≠ 0) :=
  claimed_iff_weightSumFor ℝ Real.exp cy sid db s

/-! ## Claim C8: bounds on claimed score and confidence -/

theorem get_grade_points_bounds (g : String) :
    0 ≤ get_grade_points g ∧ get_grade_points g ≤ 4 := by
  unfold get_grade_points
  rcases hf : GRADE_MAPPING.find? fun p => decide (p.1 = g.trim.toUpper) with - | p
  · rw [hf]
    norm_num
  · rw [hf]
    have hmem := List.mem_of_find?_eq_some hf
    have hall : ∀ q ∈ GRADE_MAPPING, 0 ≤ q.2 ∧ q.2 ≤ 4 := by
      intro q hq
      fin_cases hq <;> norm_num
    simpa using hall p hmem

theorem recencyK_pos_real (ay yt : Option ℤ) (cy : ℤ) :
    0 < recencyK ℝ Real.exp ay yt cy :=
  (recencyK_bounds ay yt cy).1

theorem effectiveCredits_nonneg (c : CourseTaken)
    (hc : ∀ cr, c.credits = some cr → 0 ≤ cr) : 0 ≤ effectiveCredits c := by
  rcases h : c.credits with - | cr
  · simp [effectiveCredits, h]
  · by_cases hz : cr = 0
    · simp [effectiveCredits, h, hz]
    · simpa [effectiveCredits, h, hz] using hc cr h

theorem evidenceData_row_bounds (cy : ℤ) (maps : List CourseSkillMap)
    (sid : String) (courses : List CourseTaken)
    (hw : ∀ m ∈ maps, 0 ≤ m.map_weight ∧ m.map_weight ≤ 1)
    (hc : ∀ c ∈ courses, ∀ cr, c.credits = some cr → 0 ≤ cr) :
    ∀ r ∈ evidenceData ℝ Real.exp cy maps sid courses,
      0 ≤ r.evidence_weight ∧ 0 ≤ r.contribution ∧
      r.contribution ≤ r.evidence_weight := by
  intro r hr
  unfold evidenceData at hr
  rw [List.mem_flatten] at hr
  obtain ⟨l, hl, hrl⟩ := hr
  rw [List.mem_map] at hl
  obtain ⟨c, hcmem, hceq⟩ := hl
  subst hceq
  unfold courseEvidence at hrl
  rw [List.mem_map] at hrl
  obtain ⟨m, hm, hmr⟩ := hrl
  have hmmem := List.mem_of_mem_filter hm
  have hmw := hw m hmmem
  have hcr := effectiveCredits_nonneg c (hc c hcmem)
  have hrec := recencyK_pos_real (effectiveAcademicYear c) c.year_taken cy
  have hgn := get_grade_points_bounds c.grade
  subst hmr
  have hwnn : (0:ℝ) ≤ (m.map_weight : ℝ) * ((effectiveCredits c : ℚ) : ℝ) *
      recencyK ℝ Real.exp (effectiveAcademicYear c) c.year_taken cy := by
    apply mul_nonneg
    apply mul_nonneg
    · exact_mod_cast hmw.1
    · exact_mod_cast hcr
    · exact le_of_lt hrec
  refine ⟨hwnn, ?_, ?_⟩
  · show (0:ℝ) ≤ ((get_grade_points c.grade / 4 : ℚ) : ℝ) * _
    apply mul_nonneg
    · have : (0:ℚ) ≤ get_grade_points c.grade / 4 :=
        div_nonneg hgn.1 (by norm_num)
      exact_mod_cast this
    · exact hwnn
  · show ((get_grade_points c.grade / 4 : ℚ) : ℝ) * _ ≤ _
    apply mul_le_of_le_one_left hwnn
    have h1 : get_grade_points c.grade / 4 ≤ (1:ℚ) := by
      have := hgn.2
      linarith
    exact_mod_cast h1

/-- C8: whenever every course-skill mapping weight lies in [0,1] and every
stored credits value is nonnegative, every SkillProfileClaimed row a
recompute emits satisfies 0 ≤ claimed_score ≤ 100 and
0 ≤ confidence < 1. -/
theorem claimed_scores_bounded (cy : ℤ) (sid : String) (db : SkillDB ℝ)
    (hw : ∀ m ∈ db.maps, 0 ≤ m.map_weight ∧ m.map_weight ≤ 1)
    (hc : ∀ c ∈ db.courses, ∀ cr, c.credits = some cr → 0 ≤ cr) :
    ∀ r ∈ (compute_claimed_skills ℝ Real.exp cy sid db).claimed,
      r.student_id = sid →
      0 ≤ r.claimed_score ∧ r.claimed_score ≤ 100 ∧
      0 ≤ r.confidence ∧ r.confidence < 1 := by
  intro r hr hrsid
  have hkept : ∀ (l : List (ClaimedSkillRow ℝ)),
      r ∈ (l.filter fun r => !(decide (r.student_id = sid))) → False := by
    intro l hmem
    rw [List.mem_filter] at hmem
    simp only [Bool.not_eq_true', decide_eq_false_iff_not] at hmem
    exact hmem.2 hrsid
  rcases compute_claimed_skills_cases ℝ Real.exp cy sid db with ⟨hdb, -⟩ | hdb
  · rw [hdb] at hr
    exact absurd hr (fun h => hkept db.claimed h)
  · rw [hdb] at hr
    rcases List.mem_append.mp hr with hk | hn
    · exact absurd hk (fun h => hkept db.claimed h)
    · rw [mem_claimedFromAggregates] at hn
      obtain ⟨a, ha, hz, hreq⟩ := hn
      have hfind : dictFind (skillAggregates ℝ
          (evidenceData ℝ Real.exp cy db.maps sid
            (db.courses.filter fun c => decide (c.student_id = sid)))) a.1 =
          some a.2 :=
        dictFind_of_mem_nodup _ _ _ (skillAggregates_keys_nodup ℝ _) (by exact ha)
      rw [dictFind_skillAggregates] at hfind
      by_cases hcount : ((evidenceData ℝ Real.exp cy db.maps sid
          (db.courses.filter fun c => decide (c.student_id = sid))).countP
            fun r => decide (r.skill_name = a.1)) = 0
      · rw [if_pos hcount] at hfind
        exact absurd hfind (by simp)
      · rw [if_neg hcount] at hfind
        have ha2 := (Option.some.inj hfind).symm
        have hrows := evidenceData_row_bounds cy db.maps sid
          (db.courses.filter fun c => decide (c.student_id = sid)) hw
          (fun c hcm => hc c (List.mem_of_mem_filter hcm))
        have hWnn : 0 ≤ weightSum ℝ (evidenceData ℝ Real.exp cy db.maps sid
            (db.courses.filter fun c => decide (c.student_id = sid))) a.1 := by
          apply List.sum_nonneg
          intro x hx
          rw [List.mem_map] at hx
          obtain ⟨q, hq, hxq⟩ := hx
          rw [← hxq]
          exact (hrows q (List.mem_of_mem_filter hq)).1
        have hCnn : 0 ≤ contribSum ℝ (evidenceData ℝ Real.exp cy db.maps sid
            (db.courses.filter fun c => decide (c.student_id = sid))) a.1 := by
          apply List.sum_nonneg
          intro x hx
          rw [List.mem_map] at hx
          obtain ⟨q, hq, hxq⟩ := hx
          rw [← hxq]
          exact (hrows q (List.mem_of_mem_filter hq)).2.1
        have hCW : contribSum ℝ (evidenceData ℝ Real.exp cy db.maps sid
            (db.courses.filter fun c => decide (c.student_id = sid))) a.1 ≤
            weightSum ℝ (evidenceData ℝ Real.exp cy db.maps sid
              (db.courses.filter fun c => decide (c.student_id = sid))) a.1 := by
          apply List.sum_le_sum
          intro q hq
          exact (hrows q (List.mem_of_mem_filter hq)).2.2
        have hWz : a.2.2 ≠ 0 := hz
        have hWpos : 0 < a.2.2 := by
          rw [ha2]
          rcases lt_or_eq_of_le hWnn with h | h
          · exact h
          · exfalso; apply hWz; rw [ha2]; exact h.symm
        have hC2 : a.2.1 = contribSum ℝ (evidenceData ℝ Real.exp cy db.maps sid
            (db.courses.filter fun c => decide (c.student_id = sid))) a.1 := by
          rw [ha2]
        have hW2 : a.2.2 = weightSum ℝ (evidenceData ℝ Real.exp cy db.maps sid
            (db.courses.filter fun c => decide (c.student_id = sid))) a.1 := by
          rw [ha2]
        have hscore : r.claimed_score = 100 * (a.2.1 / a.2.2) := by
          rw [hreq]
        have hconf : r.confidence = 1 - Real.exp (-(1/4) * a.2.2) := by
          rw [hreq]
        have hdivnn : 0 ≤ a.2.1 / a.2.2 :=
          div_nonneg (by rw [hC2]; exact hCnn) (le_of_lt hWpos)
        have hdivle : a.2.1 / a.2.2 ≤ 1 := by
          rw [div_le_one hWpos, hC2, hW2]
          exact hCW
        refine ⟨?_, ?_, ?_, ?_⟩
        · rw [hscore]; linarith
        · rw [hscore]; linarith
        · rw [hconf]
          have : Real.exp (-(1/4) * a.2.2) ≤ 1 := by
            apply Real.exp_le_one_iff.mpr
            nlinarith
          linarith
        · rw [hconf]
          have := Real.exp_pos (-(1/4) * a.2.2)
          linarith

/-- Concrete input for C8: one course with positive credits, one mapping
with weight 1/2. -/
def c8db : SkillDB ℝ :=
  { courses := [{ student_id := "s1", course_code := "CS1", grade := "A",
                  year_taken := none, credits := some 4, academic_year := some 4 }]
    maps := [{ course_code := "CS1", skill_name := "Prog", map_weight := 1/2 }]
    evidence := []
    claimed := [] }

theorem claimed_scores_bounded_witness :
    (∀ m ∈ c8db.maps, 0 ≤ m.map_weight ∧ m.map_weight ≤ 1) ∧
    (∀ c ∈ c8db.courses, ∀ cr, c.credits = some cr → 0 ≤ cr) ∧
    (∀ r ∈ (compute_claimed_skills ℝ Real.exp 2025 "s1" c8db).claimed,
      r.student_id = "s1" →
      0 ≤ r.claimed_score ∧ r.claimed_score ≤ 100 ∧
      0 ≤ r.confidence ∧ r.confidence < 1) := by
  have hw : ∀ m ∈ c8db.maps, 0 ≤ m.map_weight ∧ m.map_weight ≤ 1 := by
    intro m hm
    simp only [c8db, List.mem_singleton] at hm
    subst hm
    norm_num
  have hc : ∀ c ∈ c8db.courses, ∀ cr, c.credits = some cr → 0 ≤ cr := by
    intro c hcm cr hcr
    simp only [c8db, List.mem_singleton] at hcm
    subst hcm
    have h4 : (4:ℚ) = cr := by simpa using hcr
    rw [← h4]
    norm_num
  exact ⟨hw, hc, claimed_scores_bounded 2025 "s1" c8db hw hc⟩

/-! ## Claim C10: missing or zero credits default to 3.0 -/

/-- C10: for a course whose stored credits are missing or zero, every
evidence row the builder creates for it uses the default 3.0 credits inside
evidence_weight = map_weight * credits * recency, and a mapped course is
not rejected (its evidence rows exist). -/
theorem default_credits_substituted (K : Type) [LinearOrderedField K]
    (expK : K → K) (cy : ℤ) (maps : List CourseSkillMap) (sid : String)
    (c : CourseTaken) (h : c.credits = none ∨ c.credits = some 0) :
    effectiveCredits c = 3 ∧
    (∀ r ∈ courseEvidence K expK cy maps sid c,
      r.credits = 3 ∧
      r.evidence_weight = (r.map_weight : K) * (3 : K) * r.recency) ∧
    ((∃ m ∈ maps, m.course_code = c.course_code) →
      courseEvidence K expK cy maps sid c ≠ []) := by
  have hec : effectiveCredits c = 3 := by
    rcases h with h | h
    · simp [effectiveCredits, h]
    · simp [effectiveCredits, h]
  refine ⟨hec, ?_, ?_⟩
  · intro r hr
    unfold courseEvidence at hr
    rw [List.mem_map] at hr
    obtain ⟨m, -, hmr⟩ := hr
    subst hmr
    constructor
    · exact hec
    · show (m.map_weight : K) * ((effectiveCredits c : ℚ) : K) * _ =
        (m.map_weight : K) * (3 : K) * _
      rw [hec]
      norm_num
  · rintro ⟨m, hm, hmc⟩ hnil
    unfold courseEvidence at hnil
    rw [List.map_eq_nil_iff, List.filter_eq_nil_iff] at hnil
    exact hnil m hm (by simpa using hmc)

/-- A course with no stored credits. -/
def wCourseNoCredits : CourseTaken :=
  { student_id := "s1"
    course_code := "CS1"
    grade := "B"
    year_taken := none
    credits := none
    academic_year := some 4 }

theorem default_credits_substituted_witness :
    (wCourseNoCredits.credits = none ∨ wCourseNoCredits.credits = some 0) ∧
    (effectiveCredits wCourseNoCredits = 3 ∧
     (∀ r ∈ courseEvidence ℚ (fun _ => 1) 2025 [c3map] "s1" wCourseNoCredits,
       r.credits = 3 ∧
       r.evidence_weight = (r.map_weight : ℚ) * (3 : ℚ) * r.recency) ∧
     ((∃ m ∈ [c3map], m.course_code = wCourseNoCredits.course_code) →
       courseEvidence ℚ (fun _ => 1) 2025 [c3map] "s1" wCourseNoCredits ≠ [])) :=
  ⟨Or.inl rfl,
   default_credits_substituted ℚ (fun _ => 1) 2025 [c3map] "s1" wCourseNoCredits
     (Or.inl rfl)⟩

end SkillQuiz
